import Mathlib

/-!
# Webhook relay and command dispatch (claude-container-api)

A shallow embedding of `src/controllers/githubController.js`
(`verifyWebhookSignature`, `handleWebhook`), of
`githubService.triggerOutgoingWebhook`, of `processCommand` in
`claudeService.js` and `claudeServiceSimple.js`, and of the handler of `POST /`
in `routes/claude.js`, together with the string primitives of the JavaScript
runtime that they rely on.

Conventions of the embedding

* JavaScript strings are lists of characters (`Str`).
* A `throw` is the `error` side of `Except`, carrying the error's `message`.
* The three awaited services (`triggerOutgoingWebhook`, `processCommand`,
  `postComment`) are external: their outcome is an arbitrary function of the
  calls made so far and of the arguments.  Every call is recorded, in order,
  in a trace.
* Logger calls have no effect of their own; only the evaluation of their
  arguments (which may throw a `TypeError`) is kept.
-/

namespace ClaudeContainerApi

/-! ## Strings -/

/-- JavaScript string, as a list of characters. -/
abbrev Str := List Char

/-- Characters matched by the regular-expression class `\s` and stripped by
`String.prototype.trim` (ECMAScript WhiteSpace and LineTerminator). -/
def isWhitespace (c : Char) : Bool :=
  let n := c.toNat
  n == 9 || n == 10 || n == 11 || n == 12 || n == 13 || n == 32 || n == 160 ||
  n == 5760 || (8192 ≤ n && n ≤ 8202) || n == 8232 || n == 8233 || n == 8239 ||
  n == 8287 || n == 12288 || n == 65279

/-- The method `String.prototype.trimStart`. -/
def trimStart (s : Str) : Str := s.dropWhile isWhitespace

/-- The method `String.prototype.trimEnd`. -/
def trimEnd (s : Str) : Str := (s.reverse.dropWhile isWhitespace).reverse

/-- The method `String.prototype.trim`. -/
def trim (s : Str) : Str := trimEnd (trimStart s)

/-- The call `s.split(sep)` for a one-character separator. -/
def splitOn (sep : Char) : Str → List Str
  | [] => [[]]
  | c :: cs =>
    if c = sep then [] :: splitOn sep cs
    else
      match splitOn sep cs with
      | [] => [[c]]
      | piece :: rest => (c :: piece) :: rest

/-- If `s` starts with `pre`, what follows it. -/
def dropPrefix? : Str → Str → Option Str
  | [], s => some s
  | _ :: _, [] => none
  | p :: ps, c :: cs => if p = c then dropPrefix? ps cs else none

/-- The call `hay.includes(needle)` on strings. -/
def includes (needle : Str) : Str → Bool
  | [] => (dropPrefix? needle []).isSome
  | c :: cs => (dropPrefix? needle (c :: cs)).isSome || includes needle cs

/-- The trigger token searched for in comment bodies. -/
def triggerToken : Str := "@MCPClaude".toList

/-- One attempt of the regular expression `/@MCPClaude\s+(.*)/s` anchored at the
start of `s`; the result is capture group 1.  After the literal, `\s+` is
greedy and needs one whitespace character at least; `(.*)` with the `s` flag
accepts every remainder, so the first (greediest) choice of `\s+` succeeds and
the capture is what is left once all leading whitespace is consumed. -/
def matchTriggerAt (s : Str) : Option Str :=
  match dropPrefix? triggerToken s with
  | none => none
  | some [] => none
  | some (c :: rest) =>
    if isWhitespace c then some (rest.dropWhile isWhitespace) else none

/-- The call `body.match(/@MCPClaude\s+(.*)/s)`: the leftmost position at which
the pattern matches; `none` is JavaScript's `null`, `some cap` is a match whose
capture group 1 is `cap`. -/
def matchTrigger : Str → Option Str
  | [] => matchTriggerAt []
  | c :: cs =>
    match matchTriggerAt (c :: cs) with
    | some cap => some cap
    | none => matchTrigger cs

/-! ## JSON values -/

/-- JavaScript values that occur in a parsed JSON request and in the objects the
handler builds from it. -/
inductive JsVal where
  | undefined
  | null
  | bool (b : Bool)
  | num (n : Int)
  | str (s : Str)
  | arr (items : List JsVal)
  | obj (fields : List (Str × JsVal))

namespace JsVal

/-- The test `v === undefined || v === null`. -/
def isNullish : JsVal → Bool
  | undefined => true
  | null => true
  | _ => false

/-- Own property `key` of an object given by its fields (each key once);
`undefined` when there is none. -/
def field (key : Str) : List (Str × JsVal) → JsVal
  | [] => undefined
  | (k, v) :: rest => if k = key then v else field key rest

/-- The value of `v.key` when `v` is neither `undefined` nor `null`, for the
property names the handler reads (none of them is a built-in property of a
string, number, boolean or array). -/
def prop (v : JsVal) (key : Str) : JsVal :=
  match v with
  | obj fields => field key fields
  | _ => undefined

/-- Message of the `TypeError` raised by a property read on `undefined` or
`null`. -/
def readErrorMessage (v : JsVal) (key : Str) : Str :=
  "Cannot read properties of ".toList ++
    (match v with
      | null => "null".toList
      | _ => "undefined".toList) ++
    " (reading '".toList ++ key ++ "')".toList

/-- The property read `v.key`: a `TypeError` on `undefined` and `null`. -/
def get (v : JsVal) (key : Str) : Except Str JsVal :=
  if v.isNullish then .error (readErrorMessage v key) else .ok (v.prop key)

/-- The test `v === 'text'`. -/
def isString (v : JsVal) (text : Str) : Bool :=
  match v with
  | str s => s == text
  | _ => false

/-- A header or environment value as a JavaScript value (`undefined` when
absent). -/
def ofOption : Option Str → JsVal
  | none => undefined
  | some s => str s

/-- The method call `v.includes(needle)` with a string argument:
`String.prototype.includes` on a string, `Array.prototype.includes` on an
array, a `TypeError` on every other value. -/
def callIncludes (v : JsVal) (needle : Str) : Except Str Bool :=
  match v with
  | str s => .ok (includes needle s)
  | arr items => .ok (items.any (fun item => item.isString needle))
  | undefined => .error (readErrorMessage undefined "includes".toList)
  | null => .error (readErrorMessage null "includes".toList)
  | _ => .error "comment.body.includes is not a function".toList

/-- The method call `v.match(/@MCPClaude\s+(.*)/s)`: only strings have a `match`
method. -/
def callMatch (v : JsVal) : Except Str (Option Str) :=
  match v with
  | str s => .ok (matchTrigger s)
  | undefined => .error (readErrorMessage undefined "match".toList)
  | null => .error (readErrorMessage null "match".toList)
  | _ => .error "comment.body.match is not a function".toList

end JsVal

/-! ## Requests, configuration, platform -/

/-- Lookup in a string-keyed table (`req.headers[name]`, `process.env.NAME`). -/
def lookupStr (key : Str) : List (Str × Str) → Option Str
  | [] => none
  | (k, v) :: rest => if k = key then some v else lookupStr key rest

/-- The parts of the Express request that the handler reads. -/
structure Request where
  headers : List (Str × Str)
  body : JsVal

/-- The header read `req.headers[name]`. -/
def Request.header (req : Request) (name : String) : Option Str :=
  lookupStr name.toList req.headers

/-- The process environment `process.env`. -/
abbrev Env := List (Str × Str)

/-- The environment read `process.env.NAME`. -/
def envVar (env : Env) (name : String) : Option Str :=
  lookupStr name.toList env

/-- Truthiness of an optional string: defined and not empty. -/
def truthy : Option Str → Bool
  | none => false
  | some s => !s.isEmpty

/-- Library functions of the runtime, kept abstract. -/
structure Platform where
  /-- Lowercase hexadecimal HMAC-SHA-256 of a message under a key:
  `crypto.createHmac('sha256', key).update(message).digest('hex')`. -/
  hmacSha256Hex : Str → Str → Str
  /-- The function `JSON.stringify`. -/
  jsonStringify : JsVal → Str
  /-- Message of the `TypeError` of `crypto.createHmac` for an `undefined` key. -/
  missingKeyMessage : Str
  /-- Message of the `TypeError` of `hmac.update` for `undefined` data. -/
  undefinedDataMessage : Str

/-- The HTTP answer: `res.status(status).json(json)`. -/
structure Response where
  status : Nat
  json : List (Str × Str)
  deriving DecidableEq

/-! ## Services and the trace of calls -/

/-- Argument of `githubService.triggerOutgoingWebhook`. -/
structure ForwardArgs where
  targetUrl : Str
  payload : JsVal
  headers : Option (List (Str × JsVal))

/-- Argument of `claudeService.processCommand`. -/
structure CommandArgs where
  repoFullName : JsVal
  issueNumber : JsVal
  command : Str

/-- Argument of `githubService.postComment`. -/
structure CommentArgs where
  repoOwner : JsVal
  repoName : JsVal
  issueNumber : JsVal
  body : Str

/-- A call made by the handler to one of its services. -/
inductive Call where
  | triggerOutgoingWebhook (args : ForwardArgs)
  | processCommand (args : CommandArgs)
  | postComment (args : CommentArgs)

/-- The awaited services.  Each outcome may depend on the calls made before and
on the arguments: `ok` is a resolved promise, `error message` a rejection with
an `Error` of that message. -/
structure Services where
  triggerOutgoingWebhook : List Call → ForwardArgs → Except Str Unit
  processCommand : List Call → CommandArgs → Except Str Str
  postComment : List Call → CommentArgs → Except Str Unit

/-- A stage of the handler: from the calls made so far to an outcome and the
calls made so far afterwards. -/
abbrev Stage (α : Type) := List Call → Except Str α × List Call

/-- The expression `await githubService.triggerOutgoingWebhook(args)`. -/
def awaitForward (svc : Services) (args : ForwardArgs) : Stage Unit :=
  fun tr => (svc.triggerOutgoingWebhook tr args, tr ++ [Call.triggerOutgoingWebhook args])

/-- The expression `await claudeService.processCommand(args)`. -/
def awaitCommand (svc : Services) (args : CommandArgs) : Stage Str :=
  fun tr => (svc.processCommand tr args, tr ++ [Call.processCommand args])

/-- The expression `await githubService.postComment(args)`. -/
def awaitComment (svc : Services) (args : CommentArgs) : Stage Unit :=
  fun tr => (svc.postComment tr args, tr ++ [Call.postComment args])

/-! ## The controller -/

/-- The value `'sha256=' + hmac.update(payload).digest('hex')` with
`payload = JSON.stringify(body)` and `hmac` keyed by `secret`. -/
def calculatedSignature (P : Platform) (secret : Str) (body : JsVal) : Str :=
  "sha256=".toList ++ P.hmacSha256Hex secret (P.jsonStringify body)

/-- The function `verifyWebhookSignature(req)`.  It throws when the header
`x-hub-signature-256` is absent or empty; `crypto.createHmac` throws when
`GITHUB_WEBHOOK_SECRET` is not set; `hmac.update` throws when `req.body` is
`undefined`, for which `JSON.stringify` returns `undefined` (for `null` it
returns the text `null`).  The calculated signature is computed and then not
compared: the source returns `true` right after computing it, the comparison is
commented out. -/
def verifyWebhookSignature (P : Platform) (env : Env) (req : Request) : Except Str Bool :=
  match req.header "x-hub-signature-256" with
  | none => .error "No signature found in request".toList
  | some signature =>
    if signature.isEmpty then .error "No signature found in request".toList
    else
      match envVar env "GITHUB_WEBHOOK_SECRET" with
      | none => .error P.missingKeyMessage
      | some secret =>
        match req.body with
        | .undefined => .error P.undefinedDataMessage
        | body =>
          let _calculatedSignature := calculatedSignature P secret body
          .ok true

/-- The list `process.env.NAME.split(',').map(url => url.trim())`, taken only
when the variable is set and not empty. -/
def webhookUrls (value : Option Str) : List Str :=
  match value with
  | none => []
  | some v => if v.isEmpty then [] else (splitOn ',' v).map trim

/-- The loop `for (const webhookUrl of urls) { if (webhookUrl) { await
githubService.triggerOutgoingWebhook(...) } }`, the same in both fanout blocks;
`mkArgs` evaluates the argument of the call.  A throw leaves the loop. -/
def forwardEach (svc : Services) (mkArgs : Str → Except Str ForwardArgs) :
    List Str → Stage Unit
  | [], tr => (.ok (), tr)
  | webhookUrl :: rest, tr =>
    if webhookUrl.isEmpty then forwardEach svc mkArgs rest tr
    else
      match mkArgs webhookUrl with
      | .error e => (.error e, tr)
      | .ok args =>
        match awaitForward svc args tr with
        | (.error e, tr1) => (.error e, tr1)
        | (.ok _, tr1) => forwardEach svc mkArgs rest tr1

/-- Argument of the call in the global fanout (source lines 83 to 100). -/
def outgoingArgs (req : Request) (webhookUrl : Str) : Except Str ForwardArgs := do
  let payload := req.body
  let action ← payload.get "action".toList
  let sender ← payload.get "sender".toList
  let repository ← payload.get "repository".toList
  pure {
    targetUrl := webhookUrl
    payload := .obj [
      ("event".toList, .ofOption (req.header "x-github-event")),
      ("action".toList, action),
      ("sender".toList, sender),
      ("repository".toList, repository),
      ("original_payload".toList, payload)]
    headers := some [
      ("X-GitHub-Event".toList, .ofOption (req.header "x-github-event")),
      ("X-GitHub-Delivery".toList, .ofOption (req.header "x-github-delivery")),
      ("X-Hub-Signature".toList, .ofOption (req.header "x-hub-signature")),
      ("X-Hub-Signature-256".toList, .ofOption (req.header "x-hub-signature-256"))] }

/-- The block that forwards the event to `OUTGOING_WEBHOOK_URLS` (source lines
72 to 107): the `catch` logs and goes on, so only the calls made remain. -/
def forwardOutgoing (env : Env) (svc : Services) (req : Request) (tr : List Call) :
    List Call :=
  (forwardEach svc (outgoingArgs req) (webhookUrls (envVar env "OUTGOING_WEBHOOK_URLS")) tr).2

/-- Argument of the call in the comment fanout (source lines 131 to 153). -/
def commentForwardArgs (payload comment issue repo : JsVal) (webhookUrl : Str) :
    Except Str ForwardArgs := do
  let action ← payload.get "action".toList
  let repoName ← repo.get "name".toList
  let repoFullName ← repo.get "full_name".toList
  let owner ← repo.get "owner".toList
  let ownerLogin ← owner.get "login".toList
  let number ← issue.get "number".toList
  let title ← issue.get "title".toList
  let htmlUrl ← issue.get "html_url".toList
  let commentId ← comment.get "id".toList
  let commentBody ← comment.get "body".toList
  let user ← comment.get "user".toList
  let userLogin ← user.get "login".toList
  let createdAt ← comment.get "created_at".toList
  pure {
    targetUrl := webhookUrl
    payload := .obj [
      ("event".toList, .str "issue_comment".toList),
      ("action".toList, action),
      ("repository".toList, .obj [
        ("name".toList, repoName),
        ("full_name".toList, repoFullName),
        ("owner".toList, ownerLogin)]),
      ("issue".toList, .obj [
        ("number".toList, number),
        ("title".toList, title),
        ("html_url".toList, htmlUrl)]),
      ("comment".toList, .obj [
        ("id".toList, commentId),
        ("body".toList, commentBody),
        ("user".toList, userLogin),
        ("created_at".toList, createdAt)])]
    headers := none }

/-- The block that forwards a comment to `COMMENT_WEBHOOK_URLS` (source lines
122 to 160), with the same `catch` as the global fanout. -/
def forwardComment (env : Env) (svc : Services) (payload comment issue repo : JsVal)
    (tr : List Call) : List Call :=
  (forwardEach svc (commentForwardArgs payload comment issue repo)
    (webhookUrls (envVar env "COMMENT_WEBHOOK_URLS")) tr).2

/-- The object `{repoFullName: repo.full_name, issueNumber: issue.number,
command}` passed to `processCommand`. -/
def commandArgs (issue repo : JsVal) (command : Str) : Except Str CommandArgs := do
  let repoFullName ← repo.get "full_name".toList
  let issueNumber ← issue.get "number".toList
  pure { repoFullName := repoFullName, issueNumber := issueNumber, command := command }

/-- The object `{repoOwner: repo.owner.login, repoName: repo.name, issueNumber:
issue.number, body}` passed to `postComment`. -/
def commentArgs (issue repo : JsVal) (body : Str) : Except Str CommentArgs := do
  let owner ← repo.get "owner".toList
  let repoOwner ← owner.get "login".toList
  let repoName ← repo.get "name".toList
  let issueNumber ← issue.get "number".toList
  pure { repoOwner := repoOwner, repoName := repoName, issueNumber := issueNumber, body := body }

/-- The statement `await githubService.postComment({..., body})`. -/
def postReply (svc : Services) (issue repo : JsVal) (body : Str) : Stage Unit :=
  fun tr =>
    match commentArgs issue repo body with
    | .error e => (.error e, tr)
    | .ok args => awaitComment svc args tr

/-- The body of the inner `try` (source lines 175 to 193): run the command, then
post the response. -/
def runCommand (svc : Services) (issue repo : JsVal) (command : Str) : Stage Unit :=
  fun tr =>
    match commandArgs issue repo command with
    | .error e => (.error e, tr)
    | .ok args =>
      match awaitCommand svc args tr with
      | (.error e, tr1) => (.error e, tr1)
      | (.ok claudeResponse, tr1) => postReply svc issue repo claudeResponse tr1

/-- The inner `try`/`catch` (source lines 175 to 202): whatever is thrown in the
`try`, by the command or by the post of its response, is answered with the
comment `Error processing command: ` followed by the message; a throw of that
post is not caught here. -/
def dispatchCommand (svc : Services) (issue repo : JsVal) (command : Str) : Stage Unit :=
  fun tr =>
    match runCommand svc issue repo command tr with
    | (.ok _, tr1) => (.ok (), tr1)
    | (.error message, tr1) =>
      postReply svc issue repo ("Error processing command: ".toList ++ message) tr1

/-- The reads made while logging `Processing issue comment` (source lines 115 to
120): `repo.full_name`, `issue.number`, `comment.id`, `comment.user.login`. -/
def commentLogFields (comment issue repo : JsVal) : Except Str Unit := do
  let _ ← repo.get "full_name".toList
  let _ ← issue.get "number".toList
  let _ ← comment.get "id".toList
  let user ← comment.get "user".toList
  let _ ← user.get "login".toList
  pure ()

/-- The trigger detection and the dispatch (source lines 162 to 204).  The reads
of the second log statement repeat reads that have succeeded and are left
out. -/
def handleMention (svc : Services) (comment issue repo : JsVal) : Stage Unit :=
  fun tr =>
    match comment.get "body".toList with
    | .error e => (.error e, tr)
    | .ok body =>
      match body.callIncludes triggerToken with
      | .error e => (.error e, tr)
      | .ok false => (.ok (), tr)
      | .ok true =>
        match body.callMatch with
        | .error e => (.error e, tr)
        | .ok none => (.ok (), tr)
        | .ok (some capture) =>
          if capture.isEmpty then (.ok (), tr)
          else dispatchCommand svc issue repo (trim capture) tr

/-- The reads `payload.comment`, `payload.issue`, `payload.repository` and those
of the log statement that follows them (source lines 111 to 120). -/
def commentParts (payload : JsVal) : Except Str (JsVal × JsVal × JsVal) := do
  let comment ← payload.get "comment".toList
  let issue ← payload.get "issue".toList
  let repo ← payload.get "repository".toList
  commentLogFields comment issue repo
  pure (comment, issue, repo)

/-- The branch for `issue_comment` events with action `created` (source lines
110 to 205). -/
def handleIssueComment (env : Env) (svc : Services) (payload : JsVal) : Stage Unit :=
  fun tr =>
    match commentParts payload with
    | .error e => (.error e, tr)
    | .ok (comment, issue, repo) =>
      handleMention svc comment issue repo (forwardComment env svc payload comment issue repo tr)

/-- The test `event === 'issue_comment' && payload.action === 'created'`, made
once the read of `req.body.sender` has succeeded (the body is an object). -/
def isCommentCreated (req : Request) : Bool :=
  req.header "x-github-event" == some "issue_comment".toList &&
    (req.body.prop "action".toList).isString "created".toList

/-- The answer `200 {message: 'Webhook processed successfully'}`. -/
def okResponse : Response :=
  { status := 200, json := [("message".toList, "Webhook processed successfully".toList)] }

/-- The answer `401 {error: 'Invalid webhook signature', message}`. -/
def unauthorizedResponse (message : Str) : Response :=
  { status := 401,
    json := [("error".toList, "Invalid webhook signature".toList), ("message".toList, message)] }

/-- The answer `500 {error: 'Failed to process webhook'}`. -/
def failureResponse : Response :=
  { status := 500, json := [("error".toList, "Failed to process webhook".toList)] }

/-- The body of the outer `try` of `handleWebhook` (source lines 51 to 208). -/
def handleWebhookTry (P : Platform) (env : Env) (svc : Services) (req : Request) :
    Except Str Response × List Call :=
  -- logger.info reads req.body.sender?.login and req.body.repository?.full_name
  match req.body.get "sender".toList with
  | .error e => (.error e, [])
  | .ok _ =>
    match verifyWebhookSignature P env req with
    | .error message => (.ok (unauthorizedResponse message), [])
    | .ok _ =>
      let tr := forwardOutgoing env svc req []
      if isCommentCreated req then
        match handleIssueComment env svc req.body tr with
        | (.error e, tr1) => (.error e, tr1)
        | (.ok _, tr1) => (.ok okResponse, tr1)
      else (.ok okResponse, tr)

/-- The function `handleWebhook(req, res)`: the answer sent and the service calls
made, in order.  The outer `catch` answers 500. -/
def handleWebhook (P : Platform) (env : Env) (svc : Services) (req : Request) :
    Response × List Call :=
  match handleWebhookTry P env svc req with
  | (.ok response, tr) => (response, tr)
  | (.error _, tr) => (failureResponse, tr)

/-! ## Vocabulary of the statements -/

/-- The arguments of the calls to `claudeService.processCommand`, in order. -/
def commandCalls : List Call → List CommandArgs
  | [] => []
  | Call.processCommand args :: rest => args :: commandCalls rest
  | _ :: rest => commandCalls rest

/-- The arguments of the calls to `githubService.postComment`, in order. -/
def commentCalls : List Call → List CommentArgs
  | [] => []
  | Call.postComment args :: rest => args :: commentCalls rest
  | _ :: rest => commentCalls rest

/-- The target URLs of the calls to `githubService.triggerOutgoingWebhook`, in
order. -/
def forwardedUrls : List Call → List Str
  | [] => []
  | Call.triggerOutgoingWebhook args :: rest => args.targetUrl :: forwardedUrls rest
  | _ :: rest => forwardedUrls rest

/-- An event is admitted when its body has been parsed to a value and
`verifyWebhookSignature` returns. -/
def Admitted (P : Platform) (env : Env) (req : Request) : Prop :=
  req.body.isNullish = false ∧ verifyWebhookSignature P env req = .ok true

/-- The payload carries the objects the handler dereferences: `comment`,
`comment.user`, `issue`, `repository` and `repository.owner`. -/
def carriesFields (payload : JsVal) : Bool :=
  !(payload.prop "comment".toList).isNullish &&
  !((payload.prop "comment".toList).prop "user".toList).isNullish &&
  !(payload.prop "issue".toList).isNullish &&
  !(payload.prop "repository".toList).isNullish &&
  !((payload.prop "repository".toList).prop "owner".toList).isNullish

/-- The value of `payload.comment.body`. -/
def commentBody (payload : JsVal) : JsVal :=
  (payload.prop "comment".toList).prop "body".toList

/-- The argument `{repoFullName, issueNumber, command}` built from a payload. -/
def commandArgsOf (payload : JsVal) (command : Str) : CommandArgs :=
  { repoFullName := (payload.prop "repository".toList).prop "full_name".toList
    issueNumber := (payload.prop "issue".toList).prop "number".toList
    command := command }

/-- The argument `{repoOwner, repoName, issueNumber, body}` built from a
payload. -/
def commentArgsOf (payload : JsVal) (body : Str) : CommentArgs :=
  { repoOwner := ((payload.prop "repository".toList).prop "owner".toList).prop "login".toList
    repoName := (payload.prop "repository".toList).prop "name".toList
    issueNumber := (payload.prop "issue".toList).prop "number".toList
    body := body }

/-- The calls made by the two fanout blocks of a comment event, before the
trigger detection. -/
def fanoutTrace (env : Env) (svc : Services) (req : Request) : List Call :=
  forwardComment env svc req.body (req.body.prop "comment".toList)
    (req.body.prop "issue".toList) (req.body.prop "repository".toList)
    (forwardOutgoing env svc req [])

/-- The answer that follows a stage of the handler: 200 when it returns, 500
when it throws. -/
def answerOf (outcome : Except Str Unit × List Call) : Response × List Call :=
  match outcome with
  | (.ok _, tr) => (okResponse, tr)
  | (.error _, tr) => (failureResponse, tr)

/-- The entries of a URL list for which a forward is attempted: those that are
not empty. -/
def targets (urls : List Str) : List Str := urls.filter (fun url => !url.isEmpty)

/-! ## Example inputs -/

/-- A platform with a constant digest, to evaluate closed examples. -/
def stubPlatform : Platform :=
  { hmacSha256Hex := fun _ _ => List.replicate 64 '0'
    jsonStringify := fun _ => []
    missingKeyMessage := "The key argument must be of type string".toList
    undefinedDataMessage := "The data argument must be of type string".toList }

/-- The payload of the controller test (`githubController.test.js`, lines 23 to
38) with a given comment body. -/
def testPayload (commentText : String) : JsVal :=
  .obj [
    ("action".toList, .str "created".toList),
    ("comment".toList, .obj [("body".toList, .str commentText.toList)]),
    ("issue".toList, .obj [("number".toList, .num 123)]),
    ("repository".toList, .obj [
      ("full_name".toList, .str "owner/repo".toList),
      ("name".toList, .str "repo".toList),
      ("owner".toList, .obj [("login".toList, .str "owner".toList)])])]

/-- The same payload with the comment's author, as GitHub sends it. -/
def authoredPayload (commentText : String) : JsVal :=
  .obj [
    ("action".toList, .str "created".toList),
    ("comment".toList, .obj [
      ("body".toList, .str commentText.toList),
      ("user".toList, .obj [("login".toList, .str "alice".toList)])]),
    ("issue".toList, .obj [("number".toList, .num 123)]),
    ("repository".toList, .obj [
      ("full_name".toList, .str "owner/repo".toList),
      ("name".toList, .str "repo".toList),
      ("owner".toList, .obj [("login".toList, .str "owner".toList)])])]

/-- A request with an event name, a signature header and a payload. -/
def requestOf (event : String) (signature : Str) (payload : JsVal) : Request :=
  { headers := [("x-github-event".toList, event.toList), ("x-hub-signature-256".toList, signature)]
    body := payload }

/-- The environment of the controller test, with optional forward lists. -/
def testEnv (outgoing comment : String) : Env :=
  [("GITHUB_WEBHOOK_SECRET".toList, "test_secret".toList),
   ("OUTGOING_WEBHOOK_URLS".toList, outgoing.toList),
   ("COMMENT_WEBHOOK_URLS".toList, comment.toList)]

/-- Services in the manner of the test's mocks: the forward to each URL of
`failingUrls` is rejected, the command and the post resolve or are rejected
with a fixed message. -/
def mockServices (failingUrls : List String) (command : Except String String)
    (post : Except String Unit) : Services :=
  { triggerOutgoingWebhook := fun _ args =>
      if (failingUrls.map String.toList).contains args.targetUrl then
        .error "Failed to trigger webhook".toList
      else .ok ()
    processCommand := fun _ _ =>
      match command with
      | .ok text => .ok text.toList
      | .error message => .error message.toList
    postComment := fun _ _ =>
      match post with
      | .ok _ => .ok ()
      | .error message => .error message.toList }

/-! ## Further vocabulary of the statements -/

/-- The calls to `processCommand` and `postComment` of a trace, in order. -/
def dispatchCalls : List Call → List Call
  | [] => []
  | Call.triggerOutgoingWebhook _ :: rest => dispatchCalls rest
  | call :: rest => call :: dispatchCalls rest

/-- Two behaviours of the services that differ only in the forwards: after the
same calls to `processCommand` and `postComment`, these two services give the
same outcome for the same arguments; the outcomes of
`triggerOutgoingWebhook` are unrelated. -/
def SameDispatchServices (svc1 svc2 : Services) : Prop :=
  (∀ hist1 hist2 args, dispatchCalls hist1 = dispatchCalls hist2 →
    svc1.processCommand hist1 args = svc2.processCommand hist2 args) ∧
  (∀ hist1 hist2 args, dispatchCalls hist1 = dispatchCalls hist2 →
    svc1.postComment hist1 args = svc2.postComment hist2 args)

/-- The text made of the given entries separated by commas. -/
def joinComma : List Str → Str
  | [] => []
  | [entry] => entry
  | entry :: next :: rest => entry ++ ',' :: joinComma (next :: rest)

/-- The variable with value `value` lists the comma-separated `entries`: no
entry holds a comma, and the value is the entries joined by commas (an unset
variable has no entry). -/
def HasEntries (value : Option Str) (entries : List Str) : Prop :=
  (∀ entry ∈ entries, ',' ∉ entry) ∧
    ((value = none ∧ entries = []) ∨ value = some (joinComma entries))

/-- The entries that are not empty once trimmed, trimmed, in order. -/
def trimmedEntries (entries : List Str) : List Str :=
  (entries.map trim).filter (fun entry => !entry.isEmpty)

/-! ## The forwarder (`githubService.triggerOutgoingWebhook`) -/

/-- The request made by `axios.post(url, data, { headers })`. -/
structure HttpRequest where
  url : Str
  data : JsVal
  headers : List (Str × JsVal)

/-- Whether an object given by its fields has the own property `key`. -/
def hasKey (key : Str) : List (Str × JsVal) → Bool
  | [] => false
  | (k, _) :: rest => k == key || hasKey key rest

/-- The object spread `{...first, ...second}`: the properties of `first`, those
that `second` has too taking the value of `second`, then the other properties
of `second`. -/
def spread (first second : List (Str × JsVal)) : List (Str × JsVal) :=
  first.map (fun entry =>
      (entry.1, if hasKey entry.1 second then JsVal.field entry.1 second else entry.2)) ++
    second.filter (fun entry => !hasKey entry.1 first)

/-- The object `defaultHeaders` (source lines 101 to 116): the signature is
added when `OUTGOING_WEBHOOK_SECRET` is set and not empty. -/
def defaultHeaders (P : Platform) (env : Env) (payload : JsVal) : List (Str × JsVal) :=
  [("Content-Type".toList, .str "application/json".toList),
   ("User-Agent".toList, .str "Claude-GitHub-Outgoing-Webhook".toList)] ++
    (match envVar env "OUTGOING_WEBHOOK_SECRET" with
      | none => []
      | some secret =>
        if secret.isEmpty then []
        else [("X-Hub-Signature-256".toList, .str (calculatedSignature P secret payload))])

/-- The body of the `try` of `triggerOutgoingWebhook` (source lines 78 to 134):
the value returned or the message thrown, and the requests sent.  `now` is the
text of `new Date().toISOString()`, `post` is `axios.post` (the data of the
response, or the message of the rejection). -/
def triggerOutgoingWebhookTry (P : Platform) (env : Env) (now : Str)
    (post : HttpRequest → Except Str JsVal) (args : ForwardArgs) :
    Except Str JsVal × List HttpRequest :=
  let headers := args.headers.getD []
  -- logger.info reads payload.event, payload.action, payload.repository?.full_name
  match args.payload.get "event".toList with
  | .error e => (.error e, [])
  | .ok _ =>
    if envVar env "NODE_ENV" = some "test".toList then
      (.ok (.obj [
        ("success".toList, .bool true),
        ("message".toList, .str "Webhook simulated in test mode".toList),
        ("timestamp".toList, .str now)]), [])
    else
      let mergedHeaders := spread (defaultHeaders P env args.payload) headers
      let request : HttpRequest :=
        { url := args.targetUrl, data := args.payload, headers := mergedHeaders }
      match post request with
      | .error e => (.error e, [request])
      | .ok data =>
        -- logger.info reads JSON.stringify(response.data).length
        match data with
        | .undefined => (.error (JsVal.readErrorMessage .undefined "length".toList), [request])
        | _ => (.ok data, [request])

/-- The function `triggerOutgoingWebhook({ targetUrl, payload, headers = {} })`:
its `catch` rethrows with the prefix `Failed to trigger webhook: `. -/
def triggerOutgoingWebhook (P : Platform) (env : Env) (now : Str)
    (post : HttpRequest → Except Str JsVal) (args : ForwardArgs) :
    Except Str JsVal × List HttpRequest :=
  match triggerOutgoingWebhookTry P env now post args with
  | (.ok value, sent) => (.ok value, sent)
  | (.error message, sent) => (.error ("Failed to trigger webhook: ".toList ++ message), sent)

/-- The header `name` of a request (`undefined` when it has none). -/
def HttpRequest.header (request : HttpRequest) (name : String) : JsVal :=
  JsVal.field name.toList request.headers

/-! ## The command executor (`claudeService.processCommand`) -/

/-- The paths that exist in the file system. -/
abbrev FileSystem := List Str

/-- The argument `{ repoFullName, issueNumber, command, useContainer = false }`
of `processCommand`, with the strings its documentation announces. -/
structure CommandRequest where
  repoFullName : Str
  issueNumber : JsVal
  command : Str
  useContainer : Bool

/-- What the executor takes from its host: the text of `Date.now()`, the
directory `os.tmpdir()`, and `execSync(command, { cwd })`, which returns the
standard output or throws, and may change the file system in any way. -/
structure Host where
  now : Str
  tmpdir : Str
  execSync : Str → Str → FileSystem → Except Str Str × FileSystem

/-- The double quote character. -/
def quote : Char := Char.ofNat 34

/-- The call `path.join(dir, name)` for a directory and a plain name. -/
def pathJoin (dir name : Str) : Str := dir ++ '/' :: name

/-- The effect of `fs.mkdirSync(path, { recursive: true })`: the path exists
afterwards. -/
def mkdirSync (path : Str) (fs : FileSystem) : FileSystem :=
  if fs.contains path then fs else fs ++ [path]

/-- The effect of `fs.rmSync(path, { recursive: true, force: true })`: the path
and everything below it are gone. -/
def rmSync (path : Str) (fs : FileSystem) : FileSystem :=
  fs.filter (fun entry => !(entry == path) && !(path ++ ['/']).isPrefixOf entry)

/-- The simulated response of both executors (source lines 35 to 42 of
`claudeService.js`, 31 to 38 of `claudeServiceSimple.js`). -/
def simulatedResponse (repoFullName command : Str) : Str :=
  "Hello! I'm Claude responding to your question: ".toList ++ quote :: command ++ quote ::
    ("\n\nSince this is a test environment, I'm providing a simulated response. ".toList ++
    "In production, I would:\n1. Clone the repository ".toList) ++ repoFullName ++
    ("\n2. Research the codebase\n3. Provide an informed answer to your question\n\n".toList ++
    "For real functionality, please configure valid GitHub and Claude API tokens.".toList)

/-- The call `command.replace(/"/g, '\\"')`: a backslash before every double
quote. -/
def escapeQuotes : Str → Str
  | [] => []
  | c :: cs => if c = quote then Char.ofNat 92 :: c :: escapeQuotes cs else c :: escapeQuotes cs

namespace ClaudeService

/-- The test `process.env.NODE_ENV === 'test' ||
!process.env.GITHUB_TOKEN.includes('ghp_')`: the read of `includes` throws a
`TypeError` when `GITHUB_TOKEN` is not set. -/
def testMode (env : Env) : Except Str Bool :=
  if envVar env "NODE_ENV" = some "test".toList then .ok true
  else
    match envVar env "GITHUB_TOKEN" with
    | none => .error (JsVal.readErrorMessage .undefined "includes".toList)
    | some token => .ok (!includes "ghp_".toList token)

/-- The command line of the clone (source line 146). -/
def cloneCommand (token repoFullName : Str) : Str :=
  "git clone https://x-access-token:".toList ++ token ++ "@github.com/".toList ++
    repoFullName ++ ".git .".toList

/-- The command line of the interpreter (source line 158). -/
def claudeCommand (command : Str) : Str :=
  "claude --print ".toList ++ quote :: escapeQuotes command ++ [quote]

/-- The temporary directory of the local strategy: `path.join(os.tmpdir(),
'claude-' + Date.now())`. -/
def tempDir (host : Host) : Str := pathJoin host.tmpdir ("claude-".toList ++ host.now)

/-- The body of the outer `try` of `processCommand` (source lines 21 to 183): the
text returned or the message thrown, and the file system afterwards.  In the
container branch the code returns a fixed text after creating the cache
directory; what follows that `return` is not reachable.  In the local branch
the `finally` removes the temporary directory. -/
def processCommandTry (env : Env) (host : Host) (request : CommandRequest)
    (fs : FileSystem) : Except Str Str × FileSystem :=
  match testMode env with
  | .error e => (.error e, fs)
  | .ok true => (.ok (simulatedResponse request.repoFullName request.command), fs)
  | .ok false =>
    if request.useContainer && envVar env "CLAUDE_USE_CONTAINERS" == some "1".toList then
      let repoCache :=
        if truthy (envVar env "REPO_CACHE_DIR") then (envVar env "REPO_CACHE_DIR").getD []
        else pathJoin host.tmpdir "repo-cache".toList
      (.ok ("Claude container test response for command: ".toList ++ request.command),
        mkdirSync repoCache fs)
    else
      let fs1 := mkdirSync (tempDir host) fs
      let outcome : Except Str Str × FileSystem :=
        match host.execSync
            (cloneCommand ((envVar env "GITHUB_TOKEN").getD []) request.repoFullName)
            (tempDir host) fs1 with
        | (.error e, fs2) => (.error e, fs2)
        | (.ok _, fs2) => host.execSync (claudeCommand request.command) (tempDir host) fs2
      (outcome.1, rmSync (tempDir host) outcome.2)

/-- The function `processCommand` of `claudeService.js`: its `catch` rethrows
with the prefix `Failed to process command: `. -/
def processCommand (env : Env) (host : Host) (request : CommandRequest) (fs : FileSystem) :
    Except Str Str × FileSystem :=
  match processCommandTry env host request fs with
  | (.ok text, fs1) => (.ok text, fs1)
  | (.error message, fs1) => (.error ("Failed to process command: ".toList ++ message), fs1)

end ClaudeService

namespace ClaudeServiceSimple

/-- The function `processCommand` of `claudeServiceSimple.js`; `now` is the text
of `new Date().toISOString()`.  Nothing in its `try` throws. -/
def processCommand (env : Env) (now : Str) (request : CommandRequest) : Except Str Str :=
  if envVar env "NODE_ENV" = some "test".toList || !truthy (envVar env "GITHUB_TOKEN") then
    .ok (simulatedResponse request.repoFullName request.command)
  else if request.useContainer then
    .ok ("Claude Container Response\n------------------------\nRepository: ".toList ++
      request.repoFullName ++ "\nCommand: ".toList ++ request.command ++
      ("\n\nThis is a simulated container-based Claude response.\n".toList ++
      "In production, this would execute Claude inside a Docker container\n".toList ++
      "with access to the specified repository code.\nTime: ".toList) ++ now)
  else
    .ok ("Claude Standard Response\n----------------------\nRepository: ".toList ++
      request.repoFullName ++ "\nCommand: ".toList ++ request.command ++
      ("\n\nThis is a simulated standard Claude response.\n".toList ++
      "In production, this would execute Claude with a cloned repository.\nTime: ".toList) ++
      now)

end ClaudeServiceSimple

/-! ## The direct endpoint (`routes/claude.js`, `POST /`) -/

/-- JavaScript truthiness of a value. -/
def JsVal.truthy : JsVal → Bool
  | .undefined => false
  | .null => false
  | .bool b => b
  | .num n => n != 0
  | .str s => !s.isEmpty
  | .arr _ => true
  | .obj _ => true

/-- The test `authToken === process.env.CLAUDE_API_AUTH_TOKEN`. -/
def sameToken (authToken : JsVal) (expected : Option Str) : Bool :=
  match authToken, expected with
  | .str s, some t => s == t
  | .undefined, none => true
  | _, _ => false

/-- The argument of `claudeServiceSimple.processCommand` built by the endpoint
(`issueNumber` is always `null`). -/
structure DirectArgs where
  repoFullName : JsVal
  command : JsVal
  useContainer : Bool

/-- The part of the handler of `POST /` that follows the validations (source
lines 77 to 113): the command is run, an empty output is replaced by a
placeholder, a failure by `Error: ` and its message, and the answer is 200. -/
def directCommand (simple : DirectArgs → Except Str Str) (body : JsVal) :
    Response × List DirectArgs :=
  let useContainer := body.prop "useContainer".toList
  let args : DirectArgs :=
    { repoFullName := body.prop "repoFullName".toList
      command := body.prop "command".toList
      useContainer :=
        (match useContainer with
          | .bool b => b
          | _ => false) || useContainer.isString "true".toList }
  let claudeResponse :=
    match simple args with
    | .ok text =>
      if (trim text).isEmpty then
        "No output received from Claude container. This is a placeholder response.".toList
      else text
    | .error message => "Error: ".toList ++ message
  ({ status := 200,
     json := [("message".toList, "Command processed successfully".toList),
       ("response".toList, claudeResponse)] }, [args])

/-- The handler of `POST /` (source lines 53 to 127): the answer and the calls
made to `claudeServiceSimple.processCommand`, given as `simple`.  Destructuring
`req.body` throws when the body is `undefined` or `null`, and the outer `catch`
answers 500. -/
def directRoute (env : Env) (simple : DirectArgs → Except Str Str) (body : JsVal) :
    Response × List DirectArgs :=
  if body.isNullish then
    ({ status := 500,
       json := [("error".toList, "Failed to process command".toList),
         ("message".toList,
           "Cannot destructure property 'repoFullName' of 'req.body' as it is ".toList ++
             (match body with
               | .null => "null.".toList
               | _ => "undefined.".toList))] }, [])
  else
    let authToken := body.prop "authToken".toList
    if !(body.prop "repoFullName".toList).truthy then
      ({ status := 400, json := [("error".toList, "Repository name is required".toList)] }, [])
    else if !(body.prop "command".toList).truthy then
      ({ status := 400, json := [("error".toList, "Command is required".toList)] }, [])
    else if envVar env "CLAUDE_API_AUTH_REQUIRED" = some "1".toList then
      if !authToken.truthy || !sameToken authToken (envVar env "CLAUDE_API_AUTH_TOKEN") then
        ({ status := 401, json := [("error".toList, "Invalid authentication token".toList)] },
          [])
      else directCommand simple body
    else directCommand simple body

/-! ## Facts about the string primitives -/

theorem dropPrefix?_eq_some_iff (pre s rest : Str) :
    dropPrefix? pre s = some rest ↔ s = pre ++ rest := by
  induction pre generalizing s with
  | nil => cases s <;> simp [dropPrefix?, eq_comm]
  | cons p ps ih =>
    cases s with
    | nil => simp [dropPrefix?]
    | cons c cs =>
      by_cases h : p = c
      · subst h; simp [dropPrefix?, ih]
      · simp [dropPrefix?, h, Ne.symm h]

theorem dropPrefix?_append (pre rest : Str) : dropPrefix? pre (pre ++ rest) = some rest :=
  (dropPrefix?_eq_some_iff pre _ rest).2 rfl

theorem includes_append (needle pre suf : Str) : includes needle (pre ++ needle ++ suf) = true := by
  induction pre with
  | nil =>
    cases h : needle ++ suf with
    | nil =>
      obtain ⟨h1, h2⟩ := List.append_eq_nil.1 h
      subst h1 h2; simp [includes, dropPrefix?]
    | cons c cs =>
      simp only [List.nil_append, h, includes, Bool.or_eq_true]
      left; rw [← h, dropPrefix?_append]; rfl
  | cons c cs ih =>
    simp only [List.cons_append, includes, Bool.or_eq_true]
    right; simpa using ih

theorem includes_eq_true_iff (needle hay : Str) :
    includes needle hay = true ↔ ∃ pre suf, hay = pre ++ needle ++ suf := by
  constructor
  · induction hay with
    | nil =>
      intro h
      simp only [includes, Option.isSome_iff_exists] at h
      obtain ⟨r, hr⟩ := h
      exact ⟨[], r, by simpa using (dropPrefix?_eq_some_iff _ _ _).1 hr⟩
    | cons c cs ih =>
      intro h
      simp only [includes, Bool.or_eq_true, Option.isSome_iff_exists] at h
      rcases h with ⟨r, hr⟩ | h
      · exact ⟨[], r, by simpa using (dropPrefix?_eq_some_iff _ _ _).1 hr⟩
      · obtain ⟨pre, suf, hps⟩ := ih h
        exact ⟨c :: pre, suf, by simp [hps]⟩
  · rintro ⟨pre, suf, rfl⟩
    exact includes_append needle pre suf

theorem matchTriggerAt_eq_some_iff (s cap : Str) :
    matchTriggerAt s = some cap ↔
      ∃ w rest, s = triggerToken ++ w :: rest ∧ isWhitespace w = true ∧
        cap = rest.dropWhile isWhitespace := by
  unfold matchTriggerAt
  constructor
  · intro h
    split at h
    · cases h
    · cases h
    · next c rest hd =>
      have hs := (dropPrefix?_eq_some_iff _ _ _).1 hd
      by_cases hw : isWhitespace c = true
      · simp only [hw, if_true, Option.some.injEq] at h
        exact ⟨c, rest, hs, hw, h.symm⟩
      · simp [hw] at h
  · rintro ⟨w, rest, rfl, hw, rfl⟩
    rw [dropPrefix?_append]
    simp [hw]

theorem matchTrigger_of_matchTriggerAt (s cap : Str) (h : matchTriggerAt s = some cap) :
    matchTrigger s = some cap := by
  cases s with
  | nil => simpa [matchTrigger] using h
  | cons c cs => simp [matchTrigger, h]

theorem matchTrigger_cons_of_none (c : Char) (cs : Str) (h : matchTriggerAt (c :: cs) = none) :
    matchTrigger (c :: cs) = matchTrigger cs := by
  simp [matchTrigger, h]

theorem matchTrigger_eq_some (s cap : Str) (h : matchTrigger s = some cap) :
    ∃ pre w rest, s = pre ++ triggerToken ++ w :: rest ∧ isWhitespace w = true ∧
      cap = rest.dropWhile isWhitespace := by
  induction s with
  | nil =>
    obtain ⟨w, rest, hs, hw, hc⟩ := (matchTriggerAt_eq_some_iff _ _).1 (by simpa [matchTrigger] using h)
    exact ⟨[], w, rest, by simp at hs, hw, hc⟩
  | cons c cs ih =>
    cases hat : matchTriggerAt (c :: cs) with
    | some cap2 =>
      rw [matchTrigger_of_matchTriggerAt _ _ hat] at h
      cases h
      obtain ⟨w, rest, hs, hw, hc⟩ := (matchTriggerAt_eq_some_iff _ _).1 hat
      exact ⟨[], w, rest, by simpa using hs, hw, hc⟩
    | none =>
      rw [matchTrigger_cons_of_none _ _ hat] at h
      obtain ⟨pre, w, rest, hs, hw, hc⟩ := ih h
      exact ⟨c :: pre, w, rest, by simp [hs], hw, hc⟩

theorem matchTrigger_first (pre : Str) (w : Char) (rest : Str) (hw : isWhitespace w = true)
    (hfirst : ∀ pre2 w2 rest2, pre ++ triggerToken ++ w :: rest = pre2 ++ triggerToken ++ w2 :: rest2 →
      isWhitespace w2 = true → pre.length ≤ pre2.length) :
    matchTrigger (pre ++ triggerToken ++ w :: rest) = some (rest.dropWhile isWhitespace) := by
  induction pre with
  | nil =>
    apply matchTrigger_of_matchTriggerAt
    exact (matchTriggerAt_eq_some_iff _ _).2 ⟨w, rest, by simp, hw, rfl⟩
  | cons c cs ih =>
    have hat : matchTriggerAt (c :: (cs ++ triggerToken ++ w :: rest)) = none := by
      cases hm : matchTriggerAt (c :: (cs ++ triggerToken ++ w :: rest)) with
      | none => rfl
      | some cap =>
        obtain ⟨w2, rest2, hs, hw2, -⟩ := (matchTriggerAt_eq_some_iff _ _).1 hm
        have := hfirst [] w2 rest2 (by simpa using hs) hw2
        simp at this
    have hcons : (c :: cs) ++ triggerToken ++ w :: rest = c :: (cs ++ triggerToken ++ w :: rest) := by
      simp
    rw [hcons, matchTrigger_cons_of_none _ _ hat]
    apply ih
    intro pre2 w2 rest2 hs hw2
    have := hfirst (c :: pre2) w2 rest2 (by simp [hcons, hs]) hw2
    simpa using this

theorem matchTrigger_isSome_of_occurrence (pre : Str) (w : Char) (rest : Str)
    (hw : isWhitespace w = true) :
    (matchTrigger (pre ++ triggerToken ++ w :: rest)).isSome = true := by
  induction pre with
  | nil =>
    rw [matchTrigger_of_matchTriggerAt _ _
      ((matchTriggerAt_eq_some_iff _ _).2 ⟨w, rest, by simp, hw, rfl⟩)]
    rfl
  | cons c cs ih =>
    have hcons : (c :: cs) ++ triggerToken ++ w :: rest = c :: (cs ++ triggerToken ++ w :: rest) := by
      simp
    rw [hcons]
    cases hm : matchTriggerAt (c :: (cs ++ triggerToken ++ w :: rest)) with
    | none => rw [matchTrigger_cons_of_none _ _ hm]; exact ih
    | some cap => rw [matchTrigger_of_matchTriggerAt _ _ hm]; rfl

theorem matchTrigger_eq_none_iff (s : Str) :
    matchTrigger s = none ↔
      ¬ ∃ pre w rest, s = pre ++ triggerToken ++ w :: rest ∧ isWhitespace w = true := by
  constructor
  · rintro h ⟨pre, w, rest, rfl, hw⟩
    have := matchTrigger_isSome_of_occurrence pre w rest hw
    rw [h] at this
    cases this
  · intro h
    cases hm : matchTrigger s with
    | none => rfl
    | some cap =>
      obtain ⟨pre, w, rest, hs, hw, -⟩ := matchTrigger_eq_some s cap hm
      exact absurd ⟨pre, w, rest, hs, hw⟩ h

theorem matchTrigger_includes (s cap : Str) (h : matchTrigger s = some cap) :
    includes triggerToken s = true := by
  obtain ⟨pre, w, rest, hs, -, -⟩ := matchTrigger_eq_some s cap h
  exact (includes_eq_true_iff _ _).2 ⟨pre, w :: rest, hs⟩

/-- The leading whitespace of a capture has been consumed by `\s+`. -/
theorem capture_head_not_whitespace (s cap : Str) (h : matchTrigger s = some cap) :
    ∀ c ∈ cap.head?, isWhitespace c = false := by
  obtain ⟨pre, w, rest, -, -, rfl⟩ := matchTrigger_eq_some s cap h
  intro c hc
  have := List.head?_dropWhile_not isWhitespace rest
  rw [Option.mem_def] at hc
  rw [hc] at this
  simpa using this

theorem trim_eq_of_head (c : Char) (cs : Str) (hc : isWhitespace c = false) :
    trim (c :: cs) = trimEnd (c :: cs) := by
  simp [trim, trimStart, hc]

theorem trimEnd_eq_rdropWhile (s : Str) : trimEnd s = s.rdropWhile isWhitespace := rfl

theorem trimEnd_cons_ne_nil (c : Char) (cs : Str) (hc : isWhitespace c = false) :
    ∃ ds, trimEnd (c :: cs) = c :: ds := by
  rw [trimEnd_eq_rdropWhile]
  have hpre : (c :: cs).rdropWhile isWhitespace <+: c :: cs := List.rdropWhile_prefix _ _
  have hne : (c :: cs).rdropWhile isWhitespace ≠ [] := by
    intro h
    have := (List.rdropWhile_eq_nil_iff).1 h c (by simp)
    simp [hc] at this
  cases hr : (c :: cs).rdropWhile isWhitespace with
  | nil => exact absurd hr hne
  | cons d ds =>
    rw [hr] at hpre
    obtain ⟨t, ht⟩ := hpre
    simp at ht
    exact ⟨ds, by rw [ht.1]⟩

theorem trimEnd_getLast_not_whitespace (s : Str) :
    ∀ c ∈ (trimEnd s).getLast?, isWhitespace c = false := by
  intro c hc
  rw [trimEnd_eq_rdropWhile] at hc
  have hne : s.rdropWhile isWhitespace ≠ [] := by
    intro h; simp [h] at hc
  have := List.rdropWhile_last_not isWhitespace s hne
  rw [List.getLast?_eq_getLast _ hne] at hc
  simp at hc
  subst hc
  simpa using this

/-- A non-empty capture trims to a non-empty command without leading or
trailing whitespace. -/
theorem trim_capture (s cap : Str) (h : matchTrigger s = some cap) (hne : cap ≠ []) :
    trim cap ≠ [] ∧ (∀ c ∈ (trim cap).head?, isWhitespace c = false) ∧
      (∀ c ∈ (trim cap).getLast?, isWhitespace c = false) := by
  cases cap with
  | nil => exact absurd rfl hne
  | cons c cs =>
    have hc : isWhitespace c = false := capture_head_not_whitespace s _ h c (by simp)
    rw [trim_eq_of_head c cs hc]
    obtain ⟨ds, hds⟩ := trimEnd_cons_ne_nil c cs hc
    refine ⟨by simp [hds], ?_, trimEnd_getLast_not_whitespace _⟩
    intro d hd
    rw [hds] at hd
    simp at hd
    subst hd
    exact hc

theorem trim_cons_whitespace (w : Char) (rest : Str) (hw : isWhitespace w = true) :
    trim (w :: rest) = trim (rest.dropWhile isWhitespace) := by
  simp [trim, trimStart, hw, List.dropWhile_idempotent]

/-! ## Facts about the stages -/

theorem get_of_not_nullish (v : JsVal) (key : Str) (h : v.isNullish = false) :
    v.get key = .ok (v.prop key) := by
  simp [JsVal.get, h]

theorem get_of_nullish (v : JsVal) (key : Str) (h : v.isNullish = true) :
    v.get key = .error (JsVal.readErrorMessage v key) := by
  simp [JsVal.get, h]

theorem commandCalls_append (xs ys : List Call) :
    commandCalls (xs ++ ys) = commandCalls xs ++ commandCalls ys := by
  induction xs with
  | nil => rfl
  | cons c cs ih => cases c <;> simp [commandCalls, ih]

theorem commentCalls_append (xs ys : List Call) :
    commentCalls (xs ++ ys) = commentCalls xs ++ commentCalls ys := by
  induction xs with
  | nil => rfl
  | cons c cs ih => cases c <;> simp [commentCalls, ih]

theorem forwardedUrls_append (xs ys : List Call) :
    forwardedUrls (xs ++ ys) = forwardedUrls xs ++ forwardedUrls ys := by
  induction xs with
  | nil => rfl
  | cons c cs ih => cases c <;> simp [forwardedUrls, ih]

/-- The fanout loop only adds forward calls. -/
theorem forwardEach_calls (svc : Services) (mkArgs : Str → Except Str ForwardArgs)
    (urls : List Str) (tr : List Call) :
    commandCalls (forwardEach svc mkArgs urls tr).2 = commandCalls tr ∧
      commentCalls (forwardEach svc mkArgs urls tr).2 = commentCalls tr := by
  induction urls generalizing tr with
  | nil => simp [forwardEach]
  | cons url rest ih =>
    unfold forwardEach
    by_cases hu : url.isEmpty = true
    · simp only [hu, if_true]; exact ih tr
    · simp only [hu]
      cases hm : mkArgs url with
      | error e => simp
      | ok args =>
        simp only [awaitForward]
        cases hs : svc.triggerOutgoingWebhook tr args with
        | error e => simp [commandCalls_append, commentCalls_append, commandCalls, commentCalls]
        | ok u =>
          have := ih (tr ++ [Call.triggerOutgoingWebhook args])
          simpa [commandCalls_append, commentCalls_append, commandCalls, commentCalls] using this


theorem commentArgs_eq (issue repo : JsVal) (body : Str) (hi : issue.isNullish = false)
    (hr : repo.isNullish = false) (ho : (repo.prop "owner".toList).isNullish = false) :
    commentArgs issue repo body = .ok
      { repoOwner := (repo.prop "owner".toList).prop "login".toList
        repoName := repo.prop "name".toList
        issueNumber := issue.prop "number".toList
        body := body } := by
  simp only [commentArgs, get_of_not_nullish _ _ hr, get_of_not_nullish _ _ hi,
    get_of_not_nullish _ _ ho, bind, Except.bind, pure, Except.pure]

theorem commandArgs_eq (issue repo : JsVal) (command : Str) (hi : issue.isNullish = false)
    (hr : repo.isNullish = false) :
    commandArgs issue repo command = .ok
      { repoFullName := repo.prop "full_name".toList
        issueNumber := issue.prop "number".toList
        command := command } := by
  simp only [commandArgs, get_of_not_nullish _ _ hr, get_of_not_nullish _ _ hi, bind,
    Except.bind, pure, Except.pure]

theorem commandArgs_command (issue repo : JsVal) (command : Str) (args : CommandArgs)
    (h : commandArgs issue repo command = .ok args) : args.command = command := by
  unfold commandArgs at h
  cases h1 : repo.get "full_name".toList with
  | error e => simp only [h1, bind, Except.bind] at h; cases h
  | ok v1 =>
    cases h2 : issue.get "number".toList with
    | error e => simp only [h1, h2, bind, Except.bind] at h; cases h
    | ok v2 =>
      simp only [h1, h2, bind, Except.bind, pure, Except.pure] at h
      cases h; rfl

/-- The post of a reply adds at most one call, a `postComment`. -/
theorem postReply_trace (svc : Services) (issue repo : JsVal) (body : Str) (tr : List Call) :
    (postReply svc issue repo body tr).2 = tr ∨
      ∃ args, (postReply svc issue repo body tr).2 = tr ++ [Call.postComment args] := by
  unfold postReply
  cases commentArgs issue repo body with
  | error e => left; rfl
  | ok args => right; exact ⟨args, rfl⟩

theorem postReply_commandCalls (svc : Services) (issue repo : JsVal) (body : Str)
    (tr : List Call) :
    commandCalls (postReply svc issue repo body tr).2 = commandCalls tr := by
  rcases postReply_trace svc issue repo body tr with h | ⟨args, h⟩ <;>
    simp [h, commandCalls_append, commandCalls]

/-- The calls to `processCommand` that `runCommand` adds carry its command. -/
theorem runCommand_commandCalls (svc : Services) (issue repo : JsVal) (command : Str)
    (tr : List Call) :
    ∀ a ∈ commandCalls (runCommand svc issue repo command tr).2,
      a ∈ commandCalls tr ∨ a.command = command := by
  unfold runCommand
  cases hc : commandArgs issue repo command with
  | error e => intro a ha; left; simpa using ha
  | ok args =>
    have hcmd := commandArgs_command issue repo command args hc
    simp only [awaitCommand]
    cases svc.processCommand tr args with
    | error e =>
      intro a ha
      simp [commandCalls_append, commandCalls] at ha
      rcases ha with ha | ha
      · left; exact ha
      · right; rw [ha]; exact hcmd
    | ok response =>
      intro a ha
      simp [postReply_commandCalls, commandCalls_append, commandCalls] at ha
      rcases ha with ha | ha
      · left; exact ha
      · right; rw [ha]; exact hcmd

theorem dispatchCommand_commandCalls (svc : Services) (issue repo : JsVal) (command : Str)
    (tr : List Call) :
    ∀ a ∈ commandCalls (dispatchCommand svc issue repo command tr).2,
      a ∈ commandCalls tr ∨ a.command = command := by
  unfold dispatchCommand
  have h := runCommand_commandCalls svc issue repo command tr
  cases hr : runCommand svc issue repo command tr with
  | mk outcome tr1 =>
    rw [hr] at h
    cases outcome with
    | ok u => exact h
    | error message =>
      intro a ha
      simp only [postReply_commandCalls] at ha
      exact h a ha

/-- The trigger detection either makes no call or dispatches the trimmed,
non-empty capture of the regular expression. -/
theorem handleMention_cases (svc : Services) (comment issue repo : JsVal) (tr : List Call) :
    (handleMention svc comment issue repo tr).2 = tr ∨
      ∃ s cap, comment.prop "body".toList = .str s ∧ includes triggerToken s = true ∧
        matchTrigger s = some cap ∧ cap ≠ [] ∧
        handleMention svc comment issue repo tr =
          dispatchCommand svc issue repo (trim cap) tr := by
  unfold handleMention
  by_cases hn : comment.isNullish = true
  · left; simp [get_of_nullish _ _ hn]
  · have hn2 : comment.isNullish = false := by simpa using hn
    rw [get_of_not_nullish _ _ hn2]
    cases hb : comment.prop "body".toList with
    | str s =>
      simp only [JsVal.callIncludes, JsVal.callMatch]
      cases hi : includes triggerToken s with
      | false => left; rfl
      | true =>
        cases hm : matchTrigger s with
        | none => left; rfl
        | some cap =>
          by_cases he : cap.isEmpty = true
          · left; simp [he]
          · right
            refine ⟨s, cap, rfl, hi, hm, ?_, by simp [he]⟩
            intro h; simp [h] at he
    | arr items =>
      simp only [JsVal.callIncludes, JsVal.callMatch]
      cases List.any items (fun item => item.isString triggerToken) <;> (left; rfl)
    | undefined => left; rfl
    | null => left; rfl
    | bool b => left; rfl
    | num n => left; rfl
    | obj fields => left; rfl


theorem answerOf_snd (outcome : Except Str Unit × List Call) : (answerOf outcome).2 = outcome.2 := by
  rcases outcome with ⟨_ | _, tr⟩ <;> rfl

theorem commentLogFields_eq_ok (comment issue repo : JsVal) :
    commentLogFields comment issue repo = .ok () ↔
      repo.isNullish = false ∧ issue.isNullish = false ∧ comment.isNullish = false ∧
        (comment.prop "user".toList).isNullish = false := by
  unfold commentLogFields
  cases hr : repo.isNullish <;> cases hi : issue.isNullish <;> cases hc : comment.isNullish <;>
    cases hu : (comment.prop "user".toList).isNullish <;>
    simp only [JsVal.get, hr, hi, hc, hu, bind, Except.bind, pure, Except.pure, if_true,
      Bool.false_eq_true, if_false, and_self, and_true, and_false, false_and, true_and,
      reduceCtorEq]

theorem commentParts_eq_ok (payload comment issue repo : JsVal)
    (h : commentParts payload = .ok (comment, issue, repo)) :
    comment = payload.prop "comment".toList ∧ issue = payload.prop "issue".toList ∧
      repo = payload.prop "repository".toList ∧ commentLogFields comment issue repo = .ok () := by
  unfold commentParts at h
  cases hp : payload.isNullish with
  | true => simp only [JsVal.get, hp, bind, Except.bind, if_true] at h; cases h
  | false =>
    simp only [JsVal.get, hp, bind, Except.bind, Bool.false_eq_true, if_false] at h
    cases hl : commentLogFields (payload.prop "comment".toList) (payload.prop "issue".toList)
        (payload.prop "repository".toList) with
    | error e => rw [hl] at h; cases h
    | ok u =>
      rw [hl] at h
      simp only [pure, Except.pure] at h
      cases h
      exact ⟨rfl, rfl, rfl, hl⟩

theorem commentParts_of_carries (payload : JsVal) (hp : payload.isNullish = false)
    (hf : carriesFields payload = true) :
    commentParts payload = .ok (payload.prop "comment".toList, payload.prop "issue".toList,
      payload.prop "repository".toList) := by
  simp only [carriesFields, Bool.and_eq_true, Bool.not_eq_true'] at hf
  obtain ⟨⟨⟨⟨hc, hu⟩, hi⟩, hr⟩, -⟩ := hf
  have hl := (commentLogFields_eq_ok _ _ _).2 ⟨hr, hi, hc, hu⟩
  simp only [commentParts, JsVal.get, hp, bind, Except.bind, Bool.false_eq_true, if_false, hl,
    pure, Except.pure]

theorem verifyWebhookSignature_ok_true (P : Platform) (env : Env) (req : Request) (b : Bool)
    (h : verifyWebhookSignature P env req = .ok b) : b = true := by
  unfold verifyWebhookSignature at h
  split at h
  · cases h
  · split at h
    · cases h
    · split at h
      · cases h
      · split at h
        · cases h
        · cases h; rfl

theorem handleWebhook_of_admitted (P : Platform) (env : Env) (svc : Services) (req : Request)
    (h : Admitted P env req) :
    handleWebhook P env svc req =
      if isCommentCreated req = true then
        answerOf (handleIssueComment env svc req.body (forwardOutgoing env svc req []))
      else (okResponse, forwardOutgoing env svc req []) := by
  obtain ⟨hb, hv⟩ := h
  unfold handleWebhook handleWebhookTry
  rw [get_of_not_nullish _ _ hb, hv]
  by_cases hc : isCommentCreated req = true
  · simp only [hc, if_true]
    rcases handleIssueComment env svc req.body (forwardOutgoing env svc req []) with ⟨_ | _, tr⟩ <;>
      rfl
  · simp only [hc, if_false]; rfl

theorem handleWebhook_of_not_admitted (P : Platform) (env : Env) (svc : Services)
    (req : Request) (h : ¬ Admitted P env req) :
    (handleWebhook P env svc req).2 = [] := by
  unfold handleWebhook handleWebhookTry
  cases hb : req.body.isNullish with
  | true => rw [get_of_nullish _ _ hb]
  | false =>
    rw [get_of_not_nullish _ _ hb]
    cases hv : verifyWebhookSignature P env req with
    | error e => rfl
    | ok b =>
      exfalso; apply h
      rw [verifyWebhookSignature_ok_true P env req b hv] at hv
      exact ⟨hb, hv⟩


theorem forwardOutgoing_calls (env : Env) (svc : Services) (req : Request) (tr : List Call) :
    commandCalls (forwardOutgoing env svc req tr) = commandCalls tr ∧
      commentCalls (forwardOutgoing env svc req tr) = commentCalls tr :=
  forwardEach_calls svc _ _ tr

theorem forwardComment_calls (env : Env) (svc : Services) (payload comment issue repo : JsVal)
    (tr : List Call) :
    commandCalls (forwardComment env svc payload comment issue repo tr) = commandCalls tr ∧
      commentCalls (forwardComment env svc payload comment issue repo tr) = commentCalls tr :=
  forwardEach_calls svc _ _ tr

theorem fanoutTrace_calls (env : Env) (svc : Services) (req : Request) :
    commandCalls (fanoutTrace env svc req) = [] ∧ commentCalls (fanoutTrace env svc req) = [] := by
  unfold fanoutTrace
  rw [(forwardComment_calls _ _ _ _ _ _ _).1, (forwardComment_calls _ _ _ _ _ _ _).2,
    (forwardOutgoing_calls _ _ _ _).1, (forwardOutgoing_calls _ _ _ _).2]
  exact ⟨rfl, rfl⟩

/-- Every run of the handler either makes no call to `processCommand` and
`postComment`, or is the dispatch of the trimmed non-empty capture found in the
comment of an admitted `issue_comment` event with action `created`. -/
theorem handleWebhook_dispatch_cases (P : Platform) (env : Env) (svc : Services)
    (req : Request) :
    (commandCalls (handleWebhook P env svc req).2 = [] ∧
        commentCalls (handleWebhook P env svc req).2 = []) ∨
      (Admitted P env req ∧ isCommentCreated req = true ∧
        ∃ s cap, commentBody req.body = .str s ∧ includes triggerToken s = true ∧
          matchTrigger s = some cap ∧ cap ≠ [] ∧
          handleWebhook P env svc req =
            answerOf (dispatchCommand svc (req.body.prop "issue".toList)
              (req.body.prop "repository".toList) (trim cap) (fanoutTrace env svc req))) := by
  by_cases hadm : Admitted P env req
  · rw [handleWebhook_of_admitted P env svc req hadm]
    by_cases hc : isCommentCreated req = true
    · rw [if_pos hc]
      simp only [answerOf_snd]
      unfold handleIssueComment
      cases hp : commentParts req.body with
      | error e =>
        left
        simp only [(forwardOutgoing_calls _ _ _ _).1, (forwardOutgoing_calls _ _ _ _).2]
        exact ⟨rfl, rfl⟩
      | ok parts =>
        obtain ⟨comment, issue, repo⟩ := parts
        obtain ⟨rfl, rfl, rfl, -⟩ := commentParts_eq_ok _ _ _ _ hp
        simp only
        rcases handleMention_cases svc (req.body.prop "comment".toList)
          (req.body.prop "issue".toList) (req.body.prop "repository".toList)
          (fanoutTrace env svc req) with h | ⟨s, cap, hs, hi, hm, hne, h⟩
        · left
          have h2 : (handleMention svc (req.body.prop "comment".toList)
              (req.body.prop "issue".toList) (req.body.prop "repository".toList)
              (forwardComment env svc req.body (req.body.prop "comment".toList)
                (req.body.prop "issue".toList) (req.body.prop "repository".toList)
                (forwardOutgoing env svc req []))).2 = fanoutTrace env svc req := h
          rw [h2]
          exact fanoutTrace_calls env svc req
        · right
          exact ⟨hadm, hc, s, cap, hs, hi, hm, hne, congrArg answerOf h⟩
    · left
      rw [if_neg hc]
      simp only [(forwardOutgoing_calls _ _ _ _).1, (forwardOutgoing_calls _ _ _ _).2]
      exact ⟨rfl, rfl⟩
  · left
    rw [handleWebhook_of_not_admitted P env svc req hadm]
    exact ⟨rfl, rfl⟩


theorem carriesFields_iff (payload : JsVal) :
    carriesFields payload = true ↔
      (payload.prop "comment".toList).isNullish = false ∧
      ((payload.prop "comment".toList).prop "user".toList).isNullish = false ∧
      (payload.prop "issue".toList).isNullish = false ∧
      (payload.prop "repository".toList).isNullish = false ∧
      ((payload.prop "repository".toList).prop "owner".toList).isNullish = false := by
  simp only [carriesFields, Bool.and_eq_true, Bool.not_eq_true', and_assoc]

theorem commentArgs_of_carries (payload : JsVal) (body : Str)
    (hf : carriesFields payload = true) :
    commentArgs (payload.prop "issue".toList) (payload.prop "repository".toList) body =
      .ok (commentArgsOf payload body) := by
  obtain ⟨-, -, hi, hr, ho⟩ := (carriesFields_iff payload).1 hf
  exact commentArgs_eq _ _ body hi hr ho

theorem commandArgs_of_carries (payload : JsVal) (command : Str)
    (hf : carriesFields payload = true) :
    commandArgs (payload.prop "issue".toList) (payload.prop "repository".toList) command =
      .ok (commandArgsOf payload command) := by
  obtain ⟨-, -, hi, hr, -⟩ := (carriesFields_iff payload).1 hf
  exact commandArgs_eq _ _ command hi hr

theorem postReply_of_carries (svc : Services) (payload : JsVal) (body : Str) (tr : List Call)
    (hf : carriesFields payload = true) :
    postReply svc (payload.prop "issue".toList) (payload.prop "repository".toList) body tr =
      (svc.postComment tr (commentArgsOf payload body),
        tr ++ [Call.postComment (commentArgsOf payload body)]) := by
  unfold postReply
  rw [commentArgs_of_carries payload body hf]
  rfl

/-- The inner `try` on a payload that carries the fields read. -/
theorem runCommand_of_carries (svc : Services) (payload : JsVal) (command : Str)
    (tr : List Call) (hf : carriesFields payload = true) :
    runCommand svc (payload.prop "issue".toList) (payload.prop "repository".toList) command tr =
      match svc.processCommand tr (commandArgsOf payload command) with
      | .error e => (.error e, tr ++ [Call.processCommand (commandArgsOf payload command)])
      | .ok response =>
        (svc.postComment (tr ++ [Call.processCommand (commandArgsOf payload command)])
            (commentArgsOf payload response),
          tr ++ [Call.processCommand (commandArgsOf payload command)] ++
            [Call.postComment (commentArgsOf payload response)]) := by
  unfold runCommand
  rw [commandArgs_of_carries payload command hf]
  simp only [awaitCommand]
  cases h : svc.processCommand tr (commandArgsOf payload command) with
  | error e => rfl
  | ok response => simp only [postReply_of_carries svc payload response _ hf]

/-- The command succeeds and its response is posted. -/
theorem dispatchCommand_ok_ok (svc : Services) (payload : JsVal) (command response : Str)
    (tr : List Call) (hf : carriesFields payload = true)
    (hc : svc.processCommand tr (commandArgsOf payload command) = .ok response)
    (hp : svc.postComment (tr ++ [Call.processCommand (commandArgsOf payload command)])
      (commentArgsOf payload response) = .ok ()) :
    dispatchCommand svc (payload.prop "issue".toList) (payload.prop "repository".toList)
        command tr =
      (.ok (), tr ++ [Call.processCommand (commandArgsOf payload command),
        Call.postComment (commentArgsOf payload response)]) := by
  unfold dispatchCommand
  rw [runCommand_of_carries svc payload command tr hf, hc]
  simp only [hp, List.append_assoc, List.singleton_append]

/-- The command succeeds, the post of its response is rejected: the `catch`
posts a second comment with the message of that rejection. -/
theorem dispatchCommand_ok_error (svc : Services) (payload : JsVal)
    (command response message : Str) (tr : List Call) (hf : carriesFields payload = true)
    (hc : svc.processCommand tr (commandArgsOf payload command) = .ok response)
    (hp : svc.postComment (tr ++ [Call.processCommand (commandArgsOf payload command)])
      (commentArgsOf payload response) = .error message) :
    dispatchCommand svc (payload.prop "issue".toList) (payload.prop "repository".toList)
        command tr =
      (svc.postComment (tr ++ [Call.processCommand (commandArgsOf payload command),
            Call.postComment (commentArgsOf payload response)])
          (commentArgsOf payload ("Error processing command: ".toList ++ message)),
        tr ++ [Call.processCommand (commandArgsOf payload command),
          Call.postComment (commentArgsOf payload response),
          Call.postComment
            (commentArgsOf payload ("Error processing command: ".toList ++ message))]) := by
  unfold dispatchCommand
  rw [runCommand_of_carries svc payload command tr hf, hc]
  simp only [hp, postReply_of_carries svc payload _ _ hf, List.append_assoc,
    List.singleton_append, List.cons_append, List.nil_append]

/-- The command is rejected: the `catch` posts the error comment. -/
theorem dispatchCommand_error (svc : Services) (payload : JsVal) (command message : Str)
    (tr : List Call) (hf : carriesFields payload = true)
    (hc : svc.processCommand tr (commandArgsOf payload command) = .error message) :
    dispatchCommand svc (payload.prop "issue".toList) (payload.prop "repository".toList)
        command tr =
      (svc.postComment (tr ++ [Call.processCommand (commandArgsOf payload command)])
          (commentArgsOf payload ("Error processing command: ".toList ++ message)),
        tr ++ [Call.processCommand (commandArgsOf payload command),
          Call.postComment
            (commentArgsOf payload ("Error processing command: ".toList ++ message))]) := by
  unfold dispatchCommand
  rw [runCommand_of_carries svc payload command tr hf, hc]
  simp only [postReply_of_carries svc payload _ _ hf, List.append_assoc, List.singleton_append]

theorem handleMention_of_capture (svc : Services) (comment issue repo : JsVal) (s cap : Str)
    (tr : List Call) (hc : comment.isNullish = false)
    (hb : comment.prop "body".toList = .str s) (hm : matchTrigger s = some cap)
    (hne : cap ≠ []) :
    handleMention svc comment issue repo tr = dispatchCommand svc issue repo (trim cap) tr := by
  unfold handleMention
  rw [get_of_not_nullish _ _ hc, hb]
  simp only [JsVal.callIncludes, JsVal.callMatch, matchTrigger_includes s cap hm, hm]
  cases cap with
  | nil => exact absurd rfl hne
  | cons c cs => rfl

theorem handleMention_of_no_capture (svc : Services) (comment issue repo : JsVal) (s : Str)
    (tr : List Call) (hc : comment.isNullish = false)
    (hb : comment.prop "body".toList = .str s)
    (hm : ∀ cap, matchTrigger s = some cap → cap = []) :
    handleMention svc comment issue repo tr = (.ok (), tr) := by
  unfold handleMention
  rw [get_of_not_nullish _ _ hc, hb]
  simp only [JsVal.callIncludes, JsVal.callMatch]
  cases includes triggerToken s with
  | false => rfl
  | true =>
    cases h : matchTrigger s with
    | none => rfl
    | some cap => rw [hm cap h]; rfl

theorem handleWebhook_of_capture (P : Platform) (env : Env) (svc : Services) (req : Request)
    (s cap : Str) (hadm : Admitted P env req) (hev : isCommentCreated req = true)
    (hf : carriesFields req.body = true) (hb : commentBody req.body = .str s)
    (hm : matchTrigger s = some cap) (hne : cap ≠ []) :
    handleWebhook P env svc req =
      answerOf (dispatchCommand svc (req.body.prop "issue".toList)
        (req.body.prop "repository".toList) (trim cap) (fanoutTrace env svc req)) := by
  rw [handleWebhook_of_admitted P env svc req hadm, if_pos hev]
  unfold handleIssueComment
  rw [commentParts_of_carries req.body hadm.1 hf]
  simp only
  rw [handleMention_of_capture svc _ _ _ s cap _ ((carriesFields_iff _).1 hf).1 hb hm hne]
  rfl

theorem handleWebhook_of_no_capture (P : Platform) (env : Env) (svc : Services)
    (req : Request) (s : Str) (hadm : Admitted P env req) (hev : isCommentCreated req = true)
    (hf : carriesFields req.body = true) (hb : commentBody req.body = .str s)
    (hm : ∀ cap, matchTrigger s = some cap → cap = []) :
    handleWebhook P env svc req = (okResponse, fanoutTrace env svc req) := by
  rw [handleWebhook_of_admitted P env svc req hadm, if_pos hev]
  unfold handleIssueComment
  rw [commentParts_of_carries req.body hadm.1 hf]
  simp only
  rw [handleMention_of_no_capture svc _ _ _ s _ ((carriesFields_iff _).1 hf).1 hb hm]
  rfl


theorem commandCalls_dispatchCommand_of_carries (svc : Services) (payload : JsVal)
    (command : Str) (tr : List Call) (hf : carriesFields payload = true) :
    commandCalls (dispatchCommand svc (payload.prop "issue".toList)
        (payload.prop "repository".toList) command tr).2 =
      commandCalls tr ++ [commandArgsOf payload command] := by
  cases hc : svc.processCommand tr (commandArgsOf payload command) with
  | error message =>
    rw [dispatchCommand_error svc payload command message tr hf hc]
    simp [commandCalls_append, commandCalls]
  | ok response =>
    cases hp : svc.postComment (tr ++ [Call.processCommand (commandArgsOf payload command)])
        (commentArgsOf payload response) with
    | error message =>
      rw [dispatchCommand_ok_error svc payload command response message tr hf hc hp]
      simp [commandCalls_append, commandCalls]
    | ok u =>
      rw [dispatchCommand_ok_ok svc payload command response tr hf hc hp]
      simp [commandCalls_append, commandCalls]

theorem matchTrigger_token_whitespace (ws : Str) (hws : ∀ c ∈ ws, isWhitespace c = true) :
    ∀ cap, matchTrigger (triggerToken ++ ws) = some cap → cap = [] := by
  intro cap h
  cases ws with
  | nil =>
    have : matchTrigger (triggerToken ++ []) = none := by decide
    rw [this] at h; cases h
  | cons w rest =>
    have hat : matchTriggerAt (triggerToken ++ w :: rest) = some [] := by
      refine (matchTriggerAt_eq_some_iff _ _).2 ⟨w, rest, rfl, hws w (by simp), ?_⟩
      exact (List.dropWhile_eq_nil_iff.2 (fun x hx => hws x (by simp [hx]))).symm
    rw [matchTrigger_of_matchTriggerAt _ _ hat] at h
    cases h; rfl

/-! ## The claims -/

/-- Without a body `verifyWebhookSignature` throws, whatever the header: the
data passed to `hmac.update` is `undefined`. -/
theorem verifyWebhookSignature_undefined_body (P : Platform) (env : Env) (req : Request)
    (hbody : req.body = .undefined) : verifyWebhookSignature P env req ≠ .ok true := by
  unfold verifyWebhookSignature
  rw [hbody]
  intro h
  split at h
  · cases h
  · split at h
    · cases h
    · split at h
      · cases h
      · cases h

/-- C1 (defect of the code): on a request that has a body,
`verifyWebhookSignature` accepts every non-empty signature header once a secret
is configured, whatever the digest of the body is: also a header computed with
another secret or over another body, which it should reject. -/
theorem verifyWebhookSignature_accepts_mismatch (P : Platform) (env : Env) (req : Request)
    (signature secret : Str)
    (hheader : req.header "x-hub-signature-256" = some signature)
    (hne : signature ≠ [])
    (hsecret : envVar env "GITHUB_WEBHOOK_SECRET" = some secret)
    (hbody : req.body ≠ .undefined) :
    verifyWebhookSignature P env req = .ok true := by
  unfold verifyWebhookSignature
  rw [hheader]
  cases signature with
  | nil => exact absurd rfl hne
  | cons c cs =>
    cases hb : req.body with
    | undefined => exact absurd hb hbody
    | _ => simp only [List.isEmpty_cons, Bool.false_eq_true, if_false, hsecret]

/-- C1, at the tampered header of the controller test, which differs from the
calculated signature. -/
theorem verifyWebhookSignature_accepts_mismatch_witness :
    "sha256=invalid_signature".toList ≠
        calculatedSignature stubPlatform "test_secret".toList
          (testPayload "@MCPClaude Tell me about this repository") ∧
      verifyWebhookSignature stubPlatform (testEnv "" "")
        (requestOf "issue_comment" "sha256=invalid_signature".toList
          (testPayload "@MCPClaude Tell me about this repository")) = .ok true :=
  ⟨by decide,
    verifyWebhookSignature_accepts_mismatch stubPlatform (testEnv "" "")
      (requestOf "issue_comment" "sha256=invalid_signature".toList
        (testPayload "@MCPClaude Tell me about this repository"))
      "sha256=invalid_signature".toList "test_secret".toList rfl (by decide) rfl
      (fun h => JsVal.noConfusion h)⟩

/-- C2 (defect of the code): with the tampered header `sha256=invalid_signature`
the handler does not answer 401.  On a payload as GitHub sends it the command
is run, its response is posted and the answer is 200; on the payload of the
controller test the answer is 500. -/
theorem handleWebhook_tampered_signature (P : Platform) :
    handleWebhook P (testEnv "" "") (mockServices [] (.ok "Claude response") (.ok ()))
        (requestOf "issue_comment" "sha256=invalid_signature".toList
          (authoredPayload "@MCPClaude Tell me about this repository")) =
      (okResponse,
        [Call.processCommand
          { repoFullName := .str "owner/repo".toList, issueNumber := .num 123,
            command := "Tell me about this repository".toList },
         Call.postComment
          { repoOwner := .str "owner".toList, repoName := .str "repo".toList,
            issueNumber := .num 123, body := "Claude response".toList }]) ∧
    handleWebhook P (testEnv "" "") (mockServices [] (.ok "Claude response") (.ok ()))
        (requestOf "issue_comment" "sha256=invalid_signature".toList
          (testPayload "@MCPClaude Tell me about this repository")) =
      (failureResponse, []) :=
  ⟨rfl, rfl⟩

/-- C3 (defect of the code): on the request of the controller test `should
process a valid webhook with @MCPClaude mention`, correctly signed, with both
services succeeding, the handler calls neither `processCommand` nor
`postComment` and answers 500 instead of 200: the log statement reads
`comment.user.login` and the test's comment, which carries the fields the
claim names, has no `user`. -/
theorem handleWebhook_mention_of_test (P : Platform) :
    handleWebhook P (testEnv "" "") (mockServices [] (.ok "Claude response") (.ok ()))
        (requestOf "issue_comment"
          (calculatedSignature P "test_secret".toList
            (testPayload "@MCPClaude Tell me about this repository"))
          (testPayload "@MCPClaude Tell me about this repository")) =
      (failureResponse, []) := by
  have hadm : Admitted P (testEnv "" "") (requestOf "issue_comment"
      (calculatedSignature P "test_secret".toList
        (testPayload "@MCPClaude Tell me about this repository"))
      (testPayload "@MCPClaude Tell me about this repository")) := ⟨rfl, rfl⟩
  rw [handleWebhook_of_admitted P _ _ _ hadm]
  rfl

/-- C6 (defect of the code): on the request of the controller test `should
ignore comments without @MCPClaude mention`, correctly signed, the handler
makes no call but answers 500 instead of 200: the log statement reads
`comment.user.login` and the test's comment has no `user`. -/
theorem handleWebhook_plain_comment_of_test (P : Platform) :
    handleWebhook P (testEnv "" "") (mockServices [] (.ok "Claude response") (.ok ()))
        (requestOf "issue_comment"
          (calculatedSignature P "test_secret".toList (testPayload "This is a regular comment"))
          (testPayload "This is a regular comment")) =
      (failureResponse, []) := by
  have hadm : Admitted P (testEnv "" "") (requestOf "issue_comment"
      (calculatedSignature P "test_secret".toList (testPayload "This is a regular comment"))
      (testPayload "This is a regular comment")) := ⟨rfl, rfl⟩
  rw [handleWebhook_of_admitted P _ _ _ hadm]
  rfl


/-- The handler calls `processCommand` or `postComment` only for an admitted
`issue_comment` event with action `created` whose comment body is a string that
contains the trigger token. -/
theorem dispatch_requires_mention (P : Platform) (env : Env) (svc : Services) (req : Request)
    (h : commandCalls (handleWebhook P env svc req).2 ≠ [] ∨
      commentCalls (handleWebhook P env svc req).2 ≠ []) :
    req.header "x-github-event" = some "issue_comment".toList ∧
      req.body.prop "action".toList = .str "created".toList ∧
      ∃ s pre suf, commentBody req.body = .str s ∧ s = pre ++ triggerToken ++ suf := by
  rcases handleWebhook_dispatch_cases P env svc req with ⟨h1, h2⟩ | ⟨-, hev, s, cap, hb, hi, -, -, -⟩
  · rcases h with h | h
    · exact absurd h1 h
    · exact absurd h2 h
  · obtain ⟨pre, suf, hs⟩ := (includes_eq_true_iff _ _).1 hi
    simp only [isCommentCreated, Bool.and_eq_true, beq_iff_eq] at hev
    refine ⟨hev.1, ?_, s, pre, suf, hb, hs⟩
    have h2 := hev.2
    cases hact : req.body.prop "action".toList with
    | str t =>
      rw [hact] at h2
      simp only [JsVal.isString, beq_iff_eq] at h2
      rw [h2]
    | undefined => rw [hact] at h2; cases h2
    | null => rw [hact] at h2; cases h2
    | bool b => rw [hact] at h2; cases h2
    | num n => rw [hact] at h2; cases h2
    | arr items => rw [hact] at h2; cases h2
    | obj fields => rw [hact] at h2; cases h2

/-- C7: when the comment body is the trigger token followed only by whitespace,
the handler calls neither `processCommand` nor `postComment`, whatever the
rest of the request, the configuration and the services. -/
theorem handleWebhook_token_then_whitespace (P : Platform) (env : Env) (svc : Services)
    (req : Request) (ws : Str) (hws : ∀ c ∈ ws, isWhitespace c = true)
    (hbody : commentBody req.body = .str (triggerToken ++ ws)) :
    commandCalls (handleWebhook P env svc req).2 = [] ∧
      commentCalls (handleWebhook P env svc req).2 = [] := by
  rcases handleWebhook_dispatch_cases P env svc req with h | ⟨-, -, s, cap, hb, -, hm, hne, -⟩
  · exact h
  · rw [hbody] at hb
    cases hb
    exact absurd (matchTrigger_token_whitespace ws hws cap hm) hne

/-- C7, at the body `@MCPClaude` followed by a space, a newline and a tab. -/
theorem handleWebhook_token_then_whitespace_witness :
    (∀ c ∈ " \n\t".toList, isWhitespace c = true) ∧
      commandCalls (handleWebhook stubPlatform (testEnv "" "")
        (mockServices [] (.ok "Claude response") (.ok ()))
        (requestOf "issue_comment" "sha256=any".toList (authoredPayload "@MCPClaude \n\t"))).2 = [] ∧
      commentCalls (handleWebhook stubPlatform (testEnv "" "")
        (mockServices [] (.ok "Claude response") (.ok ()))
        (requestOf "issue_comment" "sha256=any".toList (authoredPayload "@MCPClaude \n\t"))).2 = [] :=
  ⟨by decide,
    handleWebhook_token_then_whitespace stubPlatform (testEnv "" "")
      (mockServices [] (.ok "Claude response") (.ok ()))
      (requestOf "issue_comment" "sha256=any".toList (authoredPayload "@MCPClaude \n\t"))
      " \n\t".toList (by decide) rfl⟩

/-- C9: every command passed to `processCommand` is a non-empty string whose
first and last characters are not whitespace. -/
theorem handleWebhook_command_trimmed (P : Platform) (env : Env) (svc : Services)
    (req : Request) (args : CommandArgs)
    (hcall : args ∈ commandCalls (handleWebhook P env svc req).2) :
    args.command ≠ [] ∧ (∀ c ∈ args.command.head?, isWhitespace c = false) ∧
      (∀ c ∈ args.command.getLast?, isWhitespace c = false) := by
  rcases handleWebhook_dispatch_cases P env svc req with h | ⟨-, -, s, cap, -, -, hm, hne, h⟩
  · rw [h.1] at hcall; cases hcall
  · rw [h, answerOf_snd] at hcall
    rcases dispatchCommand_commandCalls svc _ _ (trim cap) _ args hcall with h1 | h1
    · rw [(fanoutTrace_calls env svc req).1] at h1; cases h1
    · rw [h1]; exact trim_capture s cap hm hne

/-- C9, at a comment whose command is surrounded by whitespace. -/
theorem handleWebhook_command_trimmed_witness :
    commandCalls (handleWebhook stubPlatform (testEnv "" "")
        (mockServices [] (.ok "Claude response") (.ok ()))
        (requestOf "issue_comment" "sha256=any".toList
          (authoredPayload "please @MCPClaude \n  list the open issues \n"))).2 =
      [{ repoFullName := .str "owner/repo".toList, issueNumber := .num 123,
         command := "list the open issues".toList }] ∧
    "list the open issues".toList ≠ [] ∧
      (∀ c ∈ "list the open issues".toList.head?, isWhitespace c = false) ∧
      (∀ c ∈ "list the open issues".toList.getLast?, isWhitespace c = false) :=
  ⟨rfl,
    handleWebhook_command_trimmed stubPlatform (testEnv "" "")
      (mockServices [] (.ok "Claude response") (.ok ()))
      (requestOf "issue_comment" "sha256=any".toList
        (authoredPayload "please @MCPClaude \n  list the open issues \n"))
      { repoFullName := .str "owner/repo".toList, issueNumber := .num 123,
        command := "list the open issues".toList }
      (List.Mem.head _)⟩


theorem trim_nil : trim [] = [] := rfl

theorem trim_dropWhile (s : Str) : trim (s.dropWhile isWhitespace) = trim s := by
  simp only [trim, trimStart, List.dropWhile_idempotent]

theorem commentCalls_fanoutTrace_append (env : Env) (svc : Services) (req : Request)
    (calls : List Call) :
    commentCalls (fanoutTrace env svc req ++ calls) = commentCalls calls := by
  rw [commentCalls_append, (fanoutTrace_calls env svc req).2, List.nil_append]

theorem commandCalls_fanoutTrace_append (env : Env) (svc : Services) (req : Request)
    (calls : List Call) :
    commandCalls (fanoutTrace env svc req ++ calls) = commandCalls calls := by
  rw [commandCalls_append, (fanoutTrace_calls env svc req).1, List.nil_append]

/-- With the comment's author present the mention is processed: on an admitted
`issue_comment`/`created` event whose payload carries `comment` (with `body`
and `user`), `issue` and `repository` (with `owner`) and whose comment body is
`@MCPClaude ` followed by a command text that is not blank, when the command
succeeds with `response`, `processCommand` is called once, with the
repository's full name, the issue number and the trimmed text; the first
`postComment` carries `response`; and when that post succeeds these are the
only two calls after the fanout and the answer is 200. -/
theorem handleWebhook_mention_success (P : Platform) (env : Env) (svc : Services)
    (req : Request) (text response : Str)
    (hadm : Admitted P env req) (hev : isCommentCreated req = true)
    (hf : carriesFields req.body = true)
    (hbody : commentBody req.body = .str (triggerToken ++ ' ' :: text))
    (htext : trim text ≠ [])
    (hcmd : svc.processCommand (fanoutTrace env svc req)
      (commandArgsOf req.body (trim text)) = .ok response) :
    commandCalls (handleWebhook P env svc req).2 = [commandArgsOf req.body (trim text)] ∧
    (commentCalls (handleWebhook P env svc req).2).head? =
      some (commentArgsOf req.body response) ∧
    (svc.postComment
        (fanoutTrace env svc req ++ [Call.processCommand (commandArgsOf req.body (trim text))])
        (commentArgsOf req.body response) = .ok () →
      handleWebhook P env svc req =
        (okResponse, fanoutTrace env svc req ++
          [Call.processCommand (commandArgsOf req.body (trim text)),
           Call.postComment (commentArgsOf req.body response)])) := by
  have hm : matchTrigger (triggerToken ++ ' ' :: text) = some (text.dropWhile isWhitespace) :=
    matchTrigger_of_matchTriggerAt _ _
      ((matchTriggerAt_eq_some_iff _ _).2 ⟨' ', text, rfl, by decide, rfl⟩)
  have hne : text.dropWhile isWhitespace ≠ [] := by
    intro h
    apply htext
    rw [← trim_dropWhile, h]; rfl
  have hw := handleWebhook_of_capture P env svc req _ _ hadm hev hf hbody hm hne
  rw [trim_dropWhile] at hw
  rw [hw]
  cases hp : svc.postComment
      (fanoutTrace env svc req ++ [Call.processCommand (commandArgsOf req.body (trim text))])
      (commentArgsOf req.body response) with
  | ok u =>
    rw [dispatchCommand_ok_ok svc req.body _ response _ hf hcmd hp]
    refine ⟨?_, ?_, fun _ => rfl⟩
    · simp only [answerOf, commandCalls_fanoutTrace_append, commandCalls]
    · simp only [answerOf, commentCalls_fanoutTrace_append, commentCalls, List.head?_cons]
  | error message =>
    rw [dispatchCommand_ok_error svc req.body _ response message _ hf hcmd hp]
    refine ⟨?_, ?_, fun h => by cases h⟩
    · simp only [answerOf_snd, commandCalls_fanoutTrace_append, commandCalls]
    · simp only [answerOf_snd, commentCalls_fanoutTrace_append, commentCalls, List.head?_cons]

/-- The request of the controller test, completed with the comment's author, is
processed as that test expects. -/
theorem handleWebhook_mention_success_witness :
    handleWebhook stubPlatform (testEnv "" "") (mockServices [] (.ok "Claude response") (.ok ()))
        (requestOf "issue_comment"
          (calculatedSignature stubPlatform "test_secret".toList
            (authoredPayload "@MCPClaude Tell me about this repository"))
          (authoredPayload "@MCPClaude Tell me about this repository")) =
      (okResponse,
        [Call.processCommand
          { repoFullName := .str "owner/repo".toList, issueNumber := .num 123,
            command := "Tell me about this repository".toList },
         Call.postComment
          { repoOwner := .str "owner".toList, repoName := .str "repo".toList,
            issueNumber := .num 123, body := "Claude response".toList }]) :=
  (handleWebhook_mention_success stubPlatform (testEnv "" "")
    (mockServices [] (.ok "Claude response") (.ok ()))
    (requestOf "issue_comment"
      (calculatedSignature stubPlatform "test_secret".toList
        (authoredPayload "@MCPClaude Tell me about this repository"))
      (authoredPayload "@MCPClaude Tell me about this repository"))
    "Tell me about this repository".toList "Claude response".toList
    ⟨rfl, rfl⟩ rfl rfl rfl (by decide) rfl).2.2 rfl

/-- The payload carries every field and the command succeeds, yet the answer is
500 when `postComment` is rejected both for the response and for the error
comment that the `catch` posts next. -/
theorem answer_500_after_successful_command :
    handleWebhook stubPlatform (testEnv "" "")
        (mockServices [] (.ok "Claude response") (.error "Failed to post comment: timeout"))
        (requestOf "issue_comment"
          (calculatedSignature stubPlatform "test_secret".toList
            (authoredPayload "@MCPClaude Tell me about this repository"))
          (authoredPayload "@MCPClaude Tell me about this repository")) =
      (failureResponse,
        [Call.processCommand
          { repoFullName := .str "owner/repo".toList, issueNumber := .num 123,
            command := "Tell me about this repository".toList },
         Call.postComment
          { repoOwner := .str "owner".toList, repoName := .str "repo".toList,
            issueNumber := .num 123, body := "Claude response".toList },
         Call.postComment
          { repoOwner := .str "owner".toList, repoName := .str "repo".toList,
            issueNumber := .num 123,
            body := "Error processing command: Failed to post comment: timeout".toList }]) :=
  rfl


/-- C4 (amended): on an admitted `issue_comment`/`created` event that carries
the fields read and dispatches a command, when `processCommand` is rejected
with `message`, the handler then makes exactly one more call, `postComment`
with body `Error processing command: ` followed by `message` for the same
owner, repository and issue number; the answer is 200 when that post succeeds
and 500 when it is rejected. -/
theorem handleWebhook_command_failure (P : Platform) (env : Env) (svc : Services)
    (req : Request) (s cap message : Str)
    (hadm : Admitted P env req) (hev : isCommentCreated req = true)
    (hf : carriesFields req.body = true) (hbody : commentBody req.body = .str s)
    (hm : matchTrigger s = some cap) (hne : cap ≠ [])
    (hcmd : svc.processCommand (fanoutTrace env svc req)
      (commandArgsOf req.body (trim cap)) = .error message) :
    (handleWebhook P env svc req).2 =
      fanoutTrace env svc req ++
        [Call.processCommand (commandArgsOf req.body (trim cap)),
         Call.postComment
          (commentArgsOf req.body ("Error processing command: ".toList ++ message))] ∧
    commentCalls (handleWebhook P env svc req).2 =
      [commentArgsOf req.body ("Error processing command: ".toList ++ message)] ∧
    (svc.postComment
        (fanoutTrace env svc req ++ [Call.processCommand (commandArgsOf req.body (trim cap))])
        (commentArgsOf req.body ("Error processing command: ".toList ++ message)) = .ok () →
      (handleWebhook P env svc req).1 = okResponse) ∧
    (∀ reason, svc.postComment
        (fanoutTrace env svc req ++ [Call.processCommand (commandArgsOf req.body (trim cap))])
        (commentArgsOf req.body ("Error processing command: ".toList ++ message)) =
          .error reason →
      (handleWebhook P env svc req).1 = failureResponse) := by
  rw [handleWebhook_of_capture P env svc req s cap hadm hev hf hbody hm hne,
    dispatchCommand_error svc req.body _ message _ hf hcmd]
  refine ⟨answerOf_snd _, ?_, ?_, ?_⟩
  · simp only [answerOf_snd, commentCalls_fanoutTrace_append, commentCalls]
  · intro h; rw [h]; rfl
  · intro reason h; rw [h]; rfl

/-- C4, at the request of the controller test `should handle errors from Claude
service` completed with the comment's author. -/
theorem handleWebhook_command_failure_witness :
    handleWebhook stubPlatform (testEnv "" "") (mockServices [] (.error "Claude error") (.ok ()))
        (requestOf "issue_comment" "sha256=any".toList
          (authoredPayload "@MCPClaude Tell me about this repository")) =
      (okResponse,
        [Call.processCommand
          { repoFullName := .str "owner/repo".toList, issueNumber := .num 123,
            command := "Tell me about this repository".toList },
         Call.postComment
          { repoOwner := .str "owner".toList, repoName := .str "repo".toList,
            issueNumber := .num 123,
            body := "Error processing command: Claude error".toList }]) :=
  have h := handleWebhook_command_failure stubPlatform (testEnv "" "")
    (mockServices [] (.error "Claude error") (.ok ()))
    (requestOf "issue_comment" "sha256=any".toList
      (authoredPayload "@MCPClaude Tell me about this repository"))
    "@MCPClaude Tell me about this repository".toList "Tell me about this repository".toList
    "Claude error".toList ⟨rfl, rfl⟩ rfl rfl rfl (by decide) (by decide) rfl
  Prod.ext (h.2.2.1 rfl) h.1

/-- C4 as stated fails: the command is rejected with `Claude error`, the error
comment is built as claimed, but its post is rejected and the answer is 500. -/
theorem answer_500_after_failed_command :
    commentCalls (handleWebhook stubPlatform (testEnv "" "")
        (mockServices [] (.error "Claude error") (.error "Failed to post comment: 502"))
        (requestOf "issue_comment" "sha256=any".toList
          (authoredPayload "@MCPClaude Tell me about this repository"))).2 =
      [{ repoOwner := .str "owner".toList, repoName := .str "repo".toList,
         issueNumber := .num 123,
         body := "Error processing command: Claude error".toList }] ∧
    (handleWebhook stubPlatform (testEnv "" "")
        (mockServices [] (.error "Claude error") (.error "Failed to post comment: 502"))
        (requestOf "issue_comment" "sha256=any".toList
          (authoredPayload "@MCPClaude Tell me about this repository"))).1 = failureResponse :=
  ⟨rfl, rfl⟩

/-- C10 (amended): on an admitted `issue_comment`/`created` event that carries
the fields read and dispatches a command, the last call made is a `postComment`
and the answer follows its outcome: 200 when it succeeds, 500 when it is
rejected.  In particular the answer is 500 when the command fails and the post
of the error comment fails too. -/
theorem handleWebhook_answer_follows_last_post (P : Platform) (env : Env) (svc : Services)
    (req : Request) (s cap : Str)
    (hadm : Admitted P env req) (hev : isCommentCreated req = true)
    (hf : carriesFields req.body = true) (hbody : commentBody req.body = .str s)
    (hm : matchTrigger s = some cap) (hne : cap ≠ []) :
    ∃ earlier args, (handleWebhook P env svc req).2 = earlier ++ [Call.postComment args] ∧
      ((svc.postComment earlier args = .ok () ∧ (handleWebhook P env svc req).1 = okResponse) ∨
       ((∃ reason, svc.postComment earlier args = .error reason) ∧
          (handleWebhook P env svc req).1 = failureResponse)) := by
  rw [handleWebhook_of_capture P env svc req s cap hadm hev hf hbody hm hne]
  have final : ∀ (earlier : List Call) (args : CommentArgs) (tr : List Call),
      ((svc.postComment earlier args = .ok () ∧
          (answerOf (svc.postComment earlier args, tr)).1 = okResponse) ∨
        ((∃ reason, svc.postComment earlier args = .error reason) ∧
          (answerOf (svc.postComment earlier args, tr)).1 = failureResponse)) := by
    intro earlier args tr
    cases h : svc.postComment earlier args with
    | ok u => left; exact ⟨rfl, rfl⟩
    | error reason => right; exact ⟨⟨reason, rfl⟩, rfl⟩
  cases hc : svc.processCommand (fanoutTrace env svc req)
      (commandArgsOf req.body (trim cap)) with
  | error message =>
    rw [dispatchCommand_error svc req.body _ message _ hf hc]
    exact ⟨_, _, by rw [answerOf_snd]; exact (List.append_assoc _ [_] [_]).symm, final _ _ _⟩
  | ok response =>
    cases hp : svc.postComment
        (fanoutTrace env svc req ++ [Call.processCommand (commandArgsOf req.body (trim cap))])
        (commentArgsOf req.body response) with
    | ok u =>
      rw [dispatchCommand_ok_ok svc req.body _ response _ hf hc hp]
      refine ⟨_, _, (List.append_assoc _ [_] [_]).symm, ?_⟩
      left; exact ⟨hp, rfl⟩
    | error message =>
      rw [dispatchCommand_ok_error svc req.body _ response message _ hf hc hp]
      refine ⟨fanoutTrace env svc req ++
        [Call.processCommand (commandArgsOf req.body (trim cap)),
          Call.postComment (commentArgsOf req.body response)], _, ?_, final _ _ _⟩
      rw [answerOf_snd]
      simp only [List.append_assoc, List.cons_append, List.nil_append]

/-- C10, at a request whose command fails while the post of the error comment
succeeds. -/
theorem handleWebhook_answer_follows_last_post_witness :
    ∃ earlier args,
      (handleWebhook stubPlatform (testEnv "" "")
        (mockServices [] (.error "Claude error") (.ok ()))
        (requestOf "issue_comment" "sha256=any".toList
          (authoredPayload "@MCPClaude status"))).2 = earlier ++ [Call.postComment args] ∧
      (((mockServices [] (.error "Claude error") (.ok ())).postComment earlier args = .ok () ∧
        (handleWebhook stubPlatform (testEnv "" "")
          (mockServices [] (.error "Claude error") (.ok ()))
          (requestOf "issue_comment" "sha256=any".toList
            (authoredPayload "@MCPClaude status"))).1 = okResponse) ∨
       ((∃ reason,
          (mockServices [] (.error "Claude error") (.ok ())).postComment earlier args =
            .error reason) ∧
        (handleWebhook stubPlatform (testEnv "" "")
          (mockServices [] (.error "Claude error") (.ok ()))
          (requestOf "issue_comment" "sha256=any".toList
            (authoredPayload "@MCPClaude status"))).1 = failureResponse)) :=
  handleWebhook_answer_follows_last_post stubPlatform (testEnv "" "")
    (mockServices [] (.error "Claude error") (.ok ()))
    (requestOf "issue_comment" "sha256=any".toList (authoredPayload "@MCPClaude status"))
    "@MCPClaude status".toList "status".toList ⟨rfl, rfl⟩ rfl rfl rfl (by decide) (by decide)

/-- C10 as stated fails: the command fails, the post of the comment `Error
processing command: ...` fails too, and the answer is 500. -/
theorem answer_500_when_error_comment_fails :
    (handleWebhook stubPlatform (testEnv "" "")
        (mockServices [] (.error "spawn claude ENOENT") (.error "Failed to post comment: 401"))
        (requestOf "issue_comment" "sha256=any".toList
          (authoredPayload "@MCPClaude status"))).1.status = 500 ∧
      commandCalls (handleWebhook stubPlatform (testEnv "" "")
        (mockServices [] (.error "spawn claude ENOENT") (.error "Failed to post comment: 401"))
        (requestOf "issue_comment" "sha256=any".toList
          (authoredPayload "@MCPClaude status"))).2 =
        [{ repoFullName := .str "owner/repo".toList, issueNumber := .num 123,
           command := "status".toList }] :=
  ⟨rfl, rfl⟩


/-- C8 (amended): on an admitted `issue_comment`/`created` event that carries the
fields read, with a string comment body `s`.  Take the first occurrence of the
trigger token that is directly followed by a whitespace character, and let `r`
be what follows that token up to the end of the body, trimmed.  If `r` is not
empty, `processCommand` is called once, with command `r`; if `r` is empty, or if
no occurrence of the token is directly followed by whitespace, `processCommand`
is not called. -/
theorem handleWebhook_extraction (P : Platform) (env : Env) (svc : Services) (req : Request)
    (s : Str) (hadm : Admitted P env req) (hev : isCommentCreated req = true)
    (hf : carriesFields req.body = true) (hbody : commentBody req.body = .str s) :
    (∀ pre w rest, s = pre ++ triggerToken ++ w :: rest → isWhitespace w = true →
      (∀ pre2 w2 rest2, s = pre2 ++ triggerToken ++ w2 :: rest2 → isWhitespace w2 = true →
        pre.length ≤ pre2.length) →
      (trim (w :: rest) ≠ [] →
        commandCalls (handleWebhook P env svc req).2 =
          [commandArgsOf req.body (trim (w :: rest))]) ∧
      (trim (w :: rest) = [] → commandCalls (handleWebhook P env svc req).2 = [])) ∧
    ((¬ ∃ pre w rest, s = pre ++ triggerToken ++ w :: rest ∧ isWhitespace w = true) →
      commandCalls (handleWebhook P env svc req).2 = []) := by
  constructor
  · intro pre w rest hs hw hfirst
    have hm : matchTrigger s = some (rest.dropWhile isWhitespace) := by
      rw [hs]
      exact matchTrigger_first pre w rest hw (fun pre2 w2 rest2 h2 => hfirst pre2 w2 rest2 (hs.trans h2))
    rw [trim_cons_whitespace w rest hw]
    constructor
    · intro hr
      have hne : rest.dropWhile isWhitespace ≠ [] := by
        intro h; apply hr; rw [h]; rfl
      rw [handleWebhook_of_capture P env svc req s _ hadm hev hf hbody hm hne, answerOf_snd,
        commandCalls_dispatchCommand_of_carries svc req.body _ _ hf,
        (fanoutTrace_calls env svc req).1, List.nil_append]
    · intro hr
      have hcap : ∀ cap, matchTrigger s = some cap → cap = [] := by
        intro cap hc
        rw [hm] at hc
        cases hc
        by_contra hne
        exact (trim_capture s _ hm hne).1 hr
      rw [handleWebhook_of_no_capture P env svc req s hadm hev hf hbody hcap]
      exact (fanoutTrace_calls env svc req).1
  · intro hnone
    have hm := (matchTrigger_eq_none_iff s).2 hnone
    have hcap : ∀ cap, matchTrigger s = some cap → cap = [] := by
      intro cap hc; rw [hm] at hc; cases hc
    rw [handleWebhook_of_no_capture P env svc req s hadm hev hf hbody hcap]
    exact (fanoutTrace_calls env svc req).1

/-- C8, at a body whose token is followed by a newline and a padded command. -/
theorem handleWebhook_extraction_witness :
    commandCalls (handleWebhook stubPlatform (testEnv "" "")
        (mockServices [] (.ok "Claude response") (.ok ()))
        (requestOf "issue_comment" "sha256=any".toList
          (authoredPayload "@MCPClaude\n  explain the build  \n"))).2 =
      [commandArgsOf (authoredPayload "@MCPClaude\n  explain the build  \n")
        (trim "\n  explain the build  \n".toList)] :=
  ((handleWebhook_extraction stubPlatform (testEnv "" "")
      (mockServices [] (.ok "Claude response") (.ok ()))
      (requestOf "issue_comment" "sha256=any".toList
        (authoredPayload "@MCPClaude\n  explain the build  \n"))
      "@MCPClaude\n  explain the build  \n".toList ⟨rfl, rfl⟩ rfl rfl rfl).1
    [] '\n' "  explain the build  \n".toList rfl (by decide)
    (fun _ _ _ _ _ => Nat.zero_le _)).1 (by decide)

/-- C8 as stated fails: what follows the first token is not blank in both
bodies, yet for `@MCPClaude: fix the bug` no command is dispatched (the token is
not followed by whitespace), and for `@MCPClaude, or rather @MCPClaude retry`
the command is `retry`, what follows the second token. -/
theorem command_not_after_first_token :
    trim ": fix the bug".toList ≠ [] ∧
    commandCalls (handleWebhook stubPlatform (testEnv "" "")
        (mockServices [] (.ok "Claude response") (.ok ()))
        (requestOf "issue_comment" "sha256=any".toList
          (authoredPayload "@MCPClaude: fix the bug"))).2 = [] ∧
    trim ", or rather @MCPClaude retry".toList ≠ "retry".toList ∧
    commandCalls (handleWebhook stubPlatform (testEnv "" "")
        (mockServices [] (.ok "Claude response") (.ok ()))
        (requestOf "issue_comment" "sha256=any".toList
          (authoredPayload "@MCPClaude, or rather @MCPClaude retry"))).2 =
      [{ repoFullName := .str "owner/repo".toList, issueNumber := .num 123,
         command := "retry".toList }] :=
  ⟨by decide, rfl, by decide, rfl⟩


theorem targets_cons_empty (url : Str) (rest : List Str) (h : url.isEmpty = true) :
    targets (url :: rest) = targets rest := by
  simp [targets, h]

theorem targets_cons_nonempty (url : Str) (rest : List Str) (h : url.isEmpty = false) :
    targets (url :: rest) = url :: targets rest := by
  simp [targets, h]

/-- The fanout loop stops at the first target whose forward is rejected: the
targets before it and that target are called, in order, the targets after it
are not. -/
theorem forwardEach_stops (svc : Services) (mkArgs : Str → Except Str ForwardArgs)
    (hargs : ∀ url, ∃ args, mkArgs url = .ok args ∧ args.targetUrl = url)
    (urls before after : List Str) (u reason : Str) (tr : List Call)
    (htargets : targets urls = before ++ u :: after)
    (hok : ∀ hist args, args.targetUrl ∈ before → svc.triggerOutgoingWebhook hist args = .ok ())
    (hfail : ∀ hist args, args.targetUrl = u →
      svc.triggerOutgoingWebhook hist args = .error reason) :
    forwardedUrls (forwardEach svc mkArgs urls tr).2 = forwardedUrls tr ++ (before ++ [u]) := by
  induction urls generalizing before tr with
  | nil => cases before <;> simp [targets] at htargets
  | cons url rest ih =>
    unfold forwardEach
    cases he : url.isEmpty with
    | true =>
      rw [targets_cons_empty url rest he] at htargets
      simp only [if_true]
      exact ih before tr htargets hok
    | false =>
      rw [targets_cons_nonempty url rest he] at htargets
      simp only [Bool.false_eq_true, if_false]
      obtain ⟨args, hmk, hurl⟩ := hargs url
      rw [hmk]
      simp only [awaitForward]
      cases before with
      | nil =>
        simp only [List.nil_append, List.cons.injEq] at htargets
        rw [hfail tr args (hurl.trans htargets.1)]
        simp only [forwardedUrls_append, forwardedUrls, hurl, htargets.1, List.nil_append]
      | cons b bs =>
        simp only [List.cons_append, List.cons.injEq] at htargets
        rw [hok tr args (by rw [hurl, htargets.1]; exact List.mem_cons_self _ _)]
        simp only
        rw [ih bs _ htargets.2 (fun hist a ha => hok hist a (List.mem_cons_of_mem _ ha))]
        simp only [forwardedUrls_append, forwardedUrls, hurl, htargets.1, List.append_assoc,
          List.cons_append, List.nil_append]

theorem outgoingArgs_total (req : Request) (hb : req.body.isNullish = false) (url : Str) :
    ∃ args, outgoingArgs req url = .ok args ∧ args.targetUrl = url := by
  simp only [outgoingArgs, get_of_not_nullish _ _ hb, bind, Except.bind, pure, Except.pure]
  exact ⟨_, rfl, rfl⟩

theorem commentForwardArgs_total (payload : JsVal) (hp : payload.isNullish = false)
    (hf : carriesFields payload = true) (url : Str) :
    ∃ args, commentForwardArgs payload (payload.prop "comment".toList)
      (payload.prop "issue".toList) (payload.prop "repository".toList) url = .ok args ∧
      args.targetUrl = url := by
  obtain ⟨hc, hu, hi, hr, ho⟩ := (carriesFields_iff payload).1 hf
  simp only [commentForwardArgs, get_of_not_nullish _ _ hp, get_of_not_nullish _ _ hc,
    get_of_not_nullish _ _ hu, get_of_not_nullish _ _ hi, get_of_not_nullish _ _ hr,
    get_of_not_nullish _ _ ho, bind, Except.bind, pure, Except.pure]
  exact ⟨_, rfl, rfl⟩

theorem postReply_forwardedUrls (svc : Services) (issue repo : JsVal) (body : Str)
    (tr : List Call) :
    forwardedUrls (postReply svc issue repo body tr).2 = forwardedUrls tr := by
  rcases postReply_trace svc issue repo body tr with h | ⟨args, h⟩ <;>
    simp [h, forwardedUrls_append, forwardedUrls]

theorem dispatchCommand_forwardedUrls (svc : Services) (issue repo : JsVal) (command : Str)
    (tr : List Call) :
    forwardedUrls (dispatchCommand svc issue repo command tr).2 = forwardedUrls tr := by
  have hrun : forwardedUrls (runCommand svc issue repo command tr).2 = forwardedUrls tr := by
    unfold runCommand
    cases commandArgs issue repo command with
    | error e => rfl
    | ok args =>
      simp only [awaitCommand]
      cases svc.processCommand tr args with
      | error e => simp [forwardedUrls_append, forwardedUrls]
      | ok response =>
        simp [postReply_forwardedUrls, forwardedUrls_append, forwardedUrls]
  unfold dispatchCommand
  cases hr : runCommand svc issue repo command tr with
  | mk outcome tr1 =>
    rw [hr] at hrun
    cases outcome with
    | ok u => exact hrun
    | error message =>
      simp only [postReply_forwardedUrls]
      exact hrun

theorem handleMention_forwardedUrls (svc : Services) (comment issue repo : JsVal)
    (tr : List Call) :
    forwardedUrls (handleMention svc comment issue repo tr).2 = forwardedUrls tr := by
  rcases handleMention_cases svc comment issue repo tr with h | ⟨s, cap, -, -, -, -, h⟩
  · rw [h]
  · rw [h, dispatchCommand_forwardedUrls]


theorem handleWebhook_of_carries (P : Platform) (env : Env) (svc : Services) (req : Request)
    (hadm : Admitted P env req) (hev : isCommentCreated req = true)
    (hf : carriesFields req.body = true) :
    handleWebhook P env svc req =
      answerOf (handleMention svc (req.body.prop "comment".toList)
        (req.body.prop "issue".toList) (req.body.prop "repository".toList)
        (fanoutTrace env svc req)) := by
  rw [handleWebhook_of_admitted P env svc req hadm, if_pos hev]
  unfold handleIssueComment
  rw [commentParts_of_carries req.body hadm.1 hf]
  rfl

/-- C5 (amended): a rejected forward ends the fanout loop it occurs in and is
then swallowed.  On an admitted event, when the forward to target `u` of a list
is rejected while the forwards to the targets `before` it succeed:
for `OUTGOING_WEBHOOK_URLS`, the global fanout calls `before` and `u`, in order,
and none of the targets `after`; an event that is not `issue_comment`/`created`
makes no other call and is answered 200.  For `COMMENT_WEBHOOK_URLS`, on an
`issue_comment`/`created` event that carries the fields read, the forwards of
the whole run are those of the global fanout followed by `before` and `u`, and
the event is answered 200 when its comment holds no command. -/
theorem handleWebhook_fanout_stops_at_failure (P : Platform) (env : Env) (svc : Services)
    (req : Request) (before after : List Str) (u reason : Str)
    (hadm : Admitted P env req)
    (hok : ∀ hist args, args.targetUrl ∈ before → svc.triggerOutgoingWebhook hist args = .ok ())
    (hfail : ∀ hist args, args.targetUrl = u →
      svc.triggerOutgoingWebhook hist args = .error reason) :
    (targets (webhookUrls (envVar env "OUTGOING_WEBHOOK_URLS")) = before ++ u :: after →
      forwardedUrls (forwardOutgoing env svc req []) = before ++ [u] ∧
      (isCommentCreated req = false →
        handleWebhook P env svc req = (okResponse, forwardOutgoing env svc req []))) ∧
    (isCommentCreated req = true → carriesFields req.body = true →
      targets (webhookUrls (envVar env "COMMENT_WEBHOOK_URLS")) = before ++ u :: after →
      forwardedUrls (handleWebhook P env svc req).2 =
        forwardedUrls (forwardOutgoing env svc req []) ++ (before ++ [u]) ∧
      ((∃ s, commentBody req.body = .str s ∧ ∀ cap, matchTrigger s = some cap → cap = []) →
        (handleWebhook P env svc req).1 = okResponse)) := by
  constructor
  · intro htargets
    constructor
    · have := forwardEach_stops svc (outgoingArgs req) (outgoingArgs_total req hadm.1) _
        before after u reason [] htargets hok hfail
      simpa [forwardOutgoing, forwardedUrls] using this
    · intro hev
      rw [handleWebhook_of_admitted P env svc req hadm, if_neg (by simp [hev])]
  · intro hev hf htargets
    constructor
    · rw [handleWebhook_of_carries P env svc req hadm hev hf, answerOf_snd,
        handleMention_forwardedUrls]
      exact forwardEach_stops svc _ (commentForwardArgs_total req.body hadm.1 hf) _
        before after u reason _ htargets hok hfail
    · rintro ⟨s, hb, hcap⟩
      rw [handleWebhook_of_no_capture P env svc req s hadm hev hf hb hcap]

/-- C5, on a `push` event with three global targets whose second is rejected,
and on a comment without command with two comment targets whose first is
rejected. -/
theorem handleWebhook_fanout_stops_at_failure_witness :
    handleWebhook stubPlatform
        (testEnv "https://a.example/hook, https://b.example/hook,https://c.example/hook" "")
        (mockServices ["https://b.example/hook"] (.ok "Claude response") (.ok ()))
        (requestOf "push" "sha256=any".toList (.obj [])) =
      (okResponse,
        forwardOutgoing
          (testEnv "https://a.example/hook, https://b.example/hook,https://c.example/hook" "")
          (mockServices ["https://b.example/hook"] (.ok "Claude response") (.ok ()))
          (requestOf "push" "sha256=any".toList (.obj [])) []) ∧
    forwardedUrls (forwardOutgoing
        (testEnv "https://a.example/hook, https://b.example/hook,https://c.example/hook" "")
        (mockServices ["https://b.example/hook"] (.ok "Claude response") (.ok ()))
        (requestOf "push" "sha256=any".toList (.obj [])) []) =
      ["https://a.example/hook".toList, "https://b.example/hook".toList] ∧
    forwardedUrls (handleWebhook stubPlatform
        (testEnv "https://a.example/hook" "https://b.example/hook,https://c.example/hook")
        (mockServices ["https://b.example/hook"] (.ok "Claude response") (.ok ()))
        (requestOf "issue_comment" "sha256=any".toList
          (authoredPayload "This is a regular comment"))).2 =
      ["https://a.example/hook".toList, "https://b.example/hook".toList] :=
  have hA := (handleWebhook_fanout_stops_at_failure stubPlatform
    (testEnv "https://a.example/hook, https://b.example/hook,https://c.example/hook" "")
    (mockServices ["https://b.example/hook"] (.ok "Claude response") (.ok ()))
    (requestOf "push" "sha256=any".toList (.obj []))
    ["https://a.example/hook".toList] ["https://c.example/hook".toList]
    "https://b.example/hook".toList "Failed to trigger webhook".toList ⟨rfl, rfl⟩
    (by
      intro hist args h
      rw [List.mem_singleton] at h
      simp only [mockServices, h]
      rfl)
    (by
      intro hist args h
      simp only [mockServices, h]
      rfl)).1 (by decide)
  have hB := ((handleWebhook_fanout_stops_at_failure stubPlatform
    (testEnv "https://a.example/hook" "https://b.example/hook,https://c.example/hook")
    (mockServices ["https://b.example/hook"] (.ok "Claude response") (.ok ()))
    (requestOf "issue_comment" "sha256=any".toList (authoredPayload "This is a regular comment"))
    [] ["https://c.example/hook".toList]
    "https://b.example/hook".toList "Failed to trigger webhook".toList ⟨rfl, rfl⟩
    (by intro hist args h; cases h)
    (by
      intro hist args h
      simp only [mockServices, h]
      rfl)).2 rfl rfl (by decide)).1
  ⟨hA.2 rfl, hA.1, hB⟩

/-- C5 as stated fails: of three global targets the first is rejected; the
second and the third are never called (the event is still answered 200). -/
theorem targets_after_failure_not_called :
    handleWebhook stubPlatform
        (testEnv "https://a.example/hook,https://b.example/hook,https://c.example/hook" "")
        (mockServices ["https://a.example/hook"] (.ok "Claude response") (.ok ()))
        (requestOf "push" "sha256=any".toList (.obj [])) =
      (okResponse,
        [Call.triggerOutgoingWebhook
          { targetUrl := "https://a.example/hook".toList
            payload := .obj [
              ("event".toList, .str "push".toList),
              ("action".toList, .undefined),
              ("sender".toList, .undefined),
              ("repository".toList, .undefined),
              ("original_payload".toList, .obj [])]
            headers := some [
              ("X-GitHub-Event".toList, .str "push".toList),
              ("X-GitHub-Delivery".toList, .undefined),
              ("X-Hub-Signature".toList, .undefined),
              ("X-Hub-Signature-256".toList, .str "sha256=any".toList)] }]) :=
  rfl

/-! ## Facts about the fanout, the forwarder, the executor and the endpoint -/

theorem dispatchCalls_append (xs ys : List Call) :
    dispatchCalls (xs ++ ys) = dispatchCalls xs ++ dispatchCalls ys := by
  induction xs with
  | nil => rfl
  | cons c cs ih => cases c <;> simp [dispatchCalls, ih]

theorem forwardEach_dispatchCalls (svc : Services) (mkArgs : Str → Except Str ForwardArgs)
    (urls : List Str) (tr : List Call) :
    dispatchCalls (forwardEach svc mkArgs urls tr).2 = dispatchCalls tr := by
  induction urls generalizing tr with
  | nil => rfl
  | cons url rest ih =>
    unfold forwardEach
    cases he : url.isEmpty with
    | true => simp only [if_true]; exact ih tr
    | false =>
      simp only [Bool.false_eq_true, if_false]
      cases mkArgs url with
      | error e => rfl
      | ok args =>
        simp only [awaitForward]
        cases svc.triggerOutgoingWebhook tr args with
        | error e => simp [dispatchCalls_append, dispatchCalls]
        | ok u =>
          simp only
          rw [ih]
          simp [dispatchCalls_append, dispatchCalls]

/-- Two outcomes of a stage agree: same result, same calls to `processCommand`
and `postComment`. -/
theorem postReply_agree (svc1 svc2 : Services) (h : SameDispatchServices svc1 svc2)
    (issue repo : JsVal) (body : Str) (tr1 tr2 : List Call)
    (htr : dispatchCalls tr1 = dispatchCalls tr2) :
    (postReply svc1 issue repo body tr1).1 = (postReply svc2 issue repo body tr2).1 ∧
      dispatchCalls (postReply svc1 issue repo body tr1).2 =
        dispatchCalls (postReply svc2 issue repo body tr2).2 := by
  unfold postReply
  cases commentArgs issue repo body with
  | error e => exact ⟨rfl, htr⟩
  | ok args =>
    simp only [awaitComment]
    exact ⟨h.2 tr1 tr2 args htr, by simp [dispatchCalls_append, dispatchCalls, htr]⟩

theorem runCommand_agree (svc1 svc2 : Services) (h : SameDispatchServices svc1 svc2)
    (issue repo : JsVal) (command : Str) (tr1 tr2 : List Call)
    (htr : dispatchCalls tr1 = dispatchCalls tr2) :
    (runCommand svc1 issue repo command tr1).1 = (runCommand svc2 issue repo command tr2).1 ∧
      dispatchCalls (runCommand svc1 issue repo command tr1).2 =
        dispatchCalls (runCommand svc2 issue repo command tr2).2 := by
  unfold runCommand
  cases commandArgs issue repo command with
  | error e => exact ⟨rfl, htr⟩
  | ok args =>
    simp only [awaitCommand]
    rw [h.1 tr1 tr2 args htr]
    have htr1 : dispatchCalls (tr1 ++ [Call.processCommand args]) =
        dispatchCalls (tr2 ++ [Call.processCommand args]) := by
      simp [dispatchCalls_append, dispatchCalls, htr]
    cases svc2.processCommand tr2 args with
    | error e => exact ⟨rfl, htr1⟩
    | ok response => exact postReply_agree svc1 svc2 h issue repo response _ _ htr1

theorem dispatchCommand_agree (svc1 svc2 : Services) (h : SameDispatchServices svc1 svc2)
    (issue repo : JsVal) (command : Str) (tr1 tr2 : List Call)
    (htr : dispatchCalls tr1 = dispatchCalls tr2) :
    (dispatchCommand svc1 issue repo command tr1).1 =
        (dispatchCommand svc2 issue repo command tr2).1 ∧
      dispatchCalls (dispatchCommand svc1 issue repo command tr1).2 =
        dispatchCalls (dispatchCommand svc2 issue repo command tr2).2 := by
  unfold dispatchCommand
  obtain ⟨h1, h2⟩ := runCommand_agree svc1 svc2 h issue repo command tr1 tr2 htr
  rcases hr1 : runCommand svc1 issue repo command tr1 with ⟨o1, t1⟩
  rcases hr2 : runCommand svc2 issue repo command tr2 with ⟨o2, t2⟩
  rw [hr1, hr2] at h1 h2
  simp only at h1 h2
  subst h1
  cases o1 with
  | ok u => exact ⟨rfl, h2⟩
  | error message => exact postReply_agree svc1 svc2 h issue repo _ t1 t2 h2

theorem handleMention_agree (svc1 svc2 : Services) (h : SameDispatchServices svc1 svc2)
    (comment issue repo : JsVal) (tr1 tr2 : List Call)
    (htr : dispatchCalls tr1 = dispatchCalls tr2) :
    (handleMention svc1 comment issue repo tr1).1 =
        (handleMention svc2 comment issue repo tr2).1 ∧
      dispatchCalls (handleMention svc1 comment issue repo tr1).2 =
        dispatchCalls (handleMention svc2 comment issue repo tr2).2 := by
  unfold handleMention
  cases comment.get "body".toList with
  | error e => exact ⟨rfl, htr⟩
  | ok body =>
    dsimp only
    cases body.callIncludes triggerToken with
    | error e => exact ⟨rfl, htr⟩
    | ok found =>
      cases found with
      | false => exact ⟨rfl, htr⟩
      | true =>
        dsimp only
        cases body.callMatch with
        | error e => exact ⟨rfl, htr⟩
        | ok m =>
          cases m with
          | none => exact ⟨rfl, htr⟩
          | some capture =>
            dsimp only
            cases hc : capture.isEmpty with
            | true => exact ⟨rfl, htr⟩
            | false =>
              simp only [Bool.false_eq_true, if_false]
              exact dispatchCommand_agree svc1 svc2 h issue repo _ _ _ htr

theorem handleIssueComment_agree (env : Env) (svc1 svc2 : Services)
    (h : SameDispatchServices svc1 svc2) (payload : JsVal) (tr1 tr2 : List Call)
    (htr : dispatchCalls tr1 = dispatchCalls tr2) :
    (handleIssueComment env svc1 payload tr1).1 = (handleIssueComment env svc2 payload tr2).1 ∧
      dispatchCalls (handleIssueComment env svc1 payload tr1).2 =
        dispatchCalls (handleIssueComment env svc2 payload tr2).2 := by
  unfold handleIssueComment
  cases commentParts payload with
  | error e => exact ⟨rfl, htr⟩
  | ok parts =>
    obtain ⟨comment, issue, repo⟩ := parts
    simp only
    apply handleMention_agree svc1 svc2 h
    unfold forwardComment
    rw [forwardEach_dispatchCalls, forwardEach_dispatchCalls, htr]

/-- C11: the outcomes of the forwards do not reach the rest of the pipeline.
Two runs of the handler on the same request and configuration, with services
that differ only in which forwards succeed, send the same answer and make the
same calls to `processCommand` and `postComment`, in the same order. -/
theorem handleWebhook_fanout_decoupled (P : Platform) (env : Env) (svc1 svc2 : Services)
    (req : Request) (h : SameDispatchServices svc1 svc2) :
    (handleWebhook P env svc1 req).1 = (handleWebhook P env svc2 req).1 ∧
      dispatchCalls (handleWebhook P env svc1 req).2 =
        dispatchCalls (handleWebhook P env svc2 req).2 := by
  unfold handleWebhook handleWebhookTry
  cases req.body.get "sender".toList with
  | error e => exact ⟨rfl, rfl⟩
  | ok sender =>
    cases verifyWebhookSignature P env req with
    | error message => exact ⟨rfl, rfl⟩
    | ok verified =>
      have hfw : dispatchCalls (forwardOutgoing env svc1 req []) =
          dispatchCalls (forwardOutgoing env svc2 req []) := by
        unfold forwardOutgoing
        rw [forwardEach_dispatchCalls, forwardEach_dispatchCalls]
      cases hc : isCommentCreated req with
      | false => exact ⟨rfl, hfw⟩
      | true =>
        simp only [if_true]
        obtain ⟨h1, h2⟩ := handleIssueComment_agree env svc1 svc2 h req.body _ _ hfw
        rcases hr1 : handleIssueComment env svc1 req.body (forwardOutgoing env svc1 req [])
          with ⟨o1, t1⟩
        rcases hr2 : handleIssueComment env svc2 req.body (forwardOutgoing env svc2 req [])
          with ⟨o2, t2⟩
        rw [hr1, hr2] at h1 h2
        simp only at h1 h2
        subst h1
        cases o1 with
        | ok u => exact ⟨rfl, h2⟩
        | error e => exact ⟨rfl, h2⟩


/-- C11, on a comment event with two global targets: in the second run the
first forward is rejected, and only the forwards differ. -/
theorem handleWebhook_fanout_decoupled_witness :
    forwardedUrls (handleWebhook stubPlatform
        (testEnv "https://a.example/hook,https://b.example/hook" "")
        (mockServices [] (.ok "Claude response") (.ok ()))
        (requestOf "issue_comment" "sha256=any".toList
          (authoredPayload "@MCPClaude status"))).2 =
      ["https://a.example/hook".toList, "https://b.example/hook".toList] ∧
    forwardedUrls (handleWebhook stubPlatform
        (testEnv "https://a.example/hook,https://b.example/hook" "")
        (mockServices ["https://a.example/hook"] (.ok "Claude response") (.ok ()))
        (requestOf "issue_comment" "sha256=any".toList
          (authoredPayload "@MCPClaude status"))).2 =
      ["https://a.example/hook".toList] ∧
    (handleWebhook stubPlatform (testEnv "https://a.example/hook,https://b.example/hook" "")
        (mockServices [] (.ok "Claude response") (.ok ()))
        (requestOf "issue_comment" "sha256=any".toList
          (authoredPayload "@MCPClaude status"))).1 =
      (handleWebhook stubPlatform (testEnv "https://a.example/hook,https://b.example/hook" "")
        (mockServices ["https://a.example/hook"] (.ok "Claude response") (.ok ()))
        (requestOf "issue_comment" "sha256=any".toList
          (authoredPayload "@MCPClaude status"))).1 ∧
    dispatchCalls (handleWebhook stubPlatform
        (testEnv "https://a.example/hook,https://b.example/hook" "")
        (mockServices [] (.ok "Claude response") (.ok ()))
        (requestOf "issue_comment" "sha256=any".toList
          (authoredPayload "@MCPClaude status"))).2 =
      dispatchCalls (handleWebhook stubPlatform
        (testEnv "https://a.example/hook,https://b.example/hook" "")
        (mockServices ["https://a.example/hook"] (.ok "Claude response") (.ok ()))
        (requestOf "issue_comment" "sha256=any".toList
          (authoredPayload "@MCPClaude status"))).2 :=
  ⟨rfl, rfl,
    handleWebhook_fanout_decoupled stubPlatform
      (testEnv "https://a.example/hook,https://b.example/hook" "")
      (mockServices [] (.ok "Claude response") (.ok ()))
      (mockServices ["https://a.example/hook"] (.ok "Claude response") (.ok ()))
      (requestOf "issue_comment" "sha256=any".toList (authoredPayload "@MCPClaude status"))
      ⟨fun _ _ _ _ => rfl, fun _ _ _ _ => rfl⟩⟩

/-- C12: when the header `x-hub-signature-256` is absent, `verifyWebhookSignature`
throws and the handler makes no call to any service; on a request whose body
has been parsed to a value the answer is 401. -/
theorem handleWebhook_missing_signature (P : Platform) (env : Env) (svc : Services)
    (req : Request) (hheader : req.header "x-hub-signature-256" = none) :
    verifyWebhookSignature P env req = .error "No signature found in request".toList ∧
      (handleWebhook P env svc req).2 = [] ∧
      (req.body.isNullish = false →
        handleWebhook P env svc req =
          (unauthorizedResponse "No signature found in request".toList, []) ∧
        (handleWebhook P env svc req).1.status = 401) := by
  have hv : verifyWebhookSignature P env req = .error "No signature found in request".toList := by
    unfold verifyWebhookSignature
    rw [hheader]
  have hna : ¬ Admitted P env req := by
    rintro ⟨-, h⟩
    rw [hv] at h
    cases h
  refine ⟨hv, handleWebhook_of_not_admitted P env svc req hna, ?_⟩
  intro hb
  have : handleWebhook P env svc req =
      (unauthorizedResponse "No signature found in request".toList, []) := by
    unfold handleWebhook handleWebhookTry
    rw [get_of_not_nullish _ _ hb, hv]
  rw [this]
  exact ⟨rfl, rfl⟩

/-- C12, at the request of the controller test with its signature header
removed. -/
theorem handleWebhook_missing_signature_witness :
    verifyWebhookSignature stubPlatform (testEnv "https://a.example/hook" "https://b.example/hook")
        { headers := [("x-github-event".toList, "issue_comment".toList)],
          body := authoredPayload "@MCPClaude Tell me about this repository" } =
      .error "No signature found in request".toList ∧
    handleWebhook stubPlatform (testEnv "https://a.example/hook" "https://b.example/hook")
        (mockServices [] (.ok "Claude response") (.ok ()))
        { headers := [("x-github-event".toList, "issue_comment".toList)],
          body := authoredPayload "@MCPClaude Tell me about this repository" } =
      (unauthorizedResponse "No signature found in request".toList, []) :=
  have h := handleWebhook_missing_signature stubPlatform
    (testEnv "https://a.example/hook" "https://b.example/hook")
    (mockServices [] (.ok "Claude response") (.ok ()))
    { headers := [("x-github-event".toList, "issue_comment".toList)],
      body := authoredPayload "@MCPClaude Tell me about this repository" } rfl
  ⟨h.1, (h.2.2 rfl).1⟩

/-- C14 (amended): on an admitted `issue_comment`/`created` event that carries
the fields read and dispatches a command, `postComment` is called once when the
command fails (the error comment) and once when the command succeeds and the
post of its response succeeds; when the command succeeds and the post of its
response is rejected, `postComment` is called a second and last time, with the
comment `Error processing command: ` followed by the reason of the
rejection. -/
theorem handleWebhook_post_count (P : Platform) (env : Env) (svc : Services) (req : Request)
    (s cap : Str) (hadm : Admitted P env req) (hev : isCommentCreated req = true)
    (hf : carriesFields req.body = true) (hbody : commentBody req.body = .str s)
    (hm : matchTrigger s = some cap) (hne : cap ≠ []) :
    (∀ message, svc.processCommand (fanoutTrace env svc req)
        (commandArgsOf req.body (trim cap)) = .error message →
      commentCalls (handleWebhook P env svc req).2 =
        [commentArgsOf req.body ("Error processing command: ".toList ++ message)]) ∧
    (∀ response, svc.processCommand (fanoutTrace env svc req)
        (commandArgsOf req.body (trim cap)) = .ok response →
      (svc.postComment
          (fanoutTrace env svc req ++ [Call.processCommand (commandArgsOf req.body (trim cap))])
          (commentArgsOf req.body response) = .ok () →
        commentCalls (handleWebhook P env svc req).2 = [commentArgsOf req.body response]) ∧
      (∀ reason, svc.postComment
          (fanoutTrace env svc req ++ [Call.processCommand (commandArgsOf req.body (trim cap))])
          (commentArgsOf req.body response) = .error reason →
        commentCalls (handleWebhook P env svc req).2 =
          [commentArgsOf req.body response,
           commentArgsOf req.body ("Error processing command: ".toList ++ reason)])) ∧
    ((commentCalls (handleWebhook P env svc req).2).length = 1 ∨
      (commentCalls (handleWebhook P env svc req).2).length = 2) := by
  rw [handleWebhook_of_capture P env svc req s cap hadm hev hf hbody hm hne, answerOf_snd]
  have herr : ∀ message, svc.processCommand (fanoutTrace env svc req)
      (commandArgsOf req.body (trim cap)) = .error message →
      commentCalls (dispatchCommand svc (req.body.prop "issue".toList)
        (req.body.prop "repository".toList) (trim cap) (fanoutTrace env svc req)).2 =
        [commentArgsOf req.body ("Error processing command: ".toList ++ message)] := by
    intro message hc
    rw [dispatchCommand_error svc req.body _ message _ hf hc]
    simp only [commentCalls_fanoutTrace_append, commentCalls]
  have hok : ∀ response, svc.processCommand (fanoutTrace env svc req)
      (commandArgsOf req.body (trim cap)) = .ok response →
      svc.postComment
        (fanoutTrace env svc req ++ [Call.processCommand (commandArgsOf req.body (trim cap))])
        (commentArgsOf req.body response) = .ok () →
      commentCalls (dispatchCommand svc (req.body.prop "issue".toList)
        (req.body.prop "repository".toList) (trim cap) (fanoutTrace env svc req)).2 =
        [commentArgsOf req.body response] := by
    intro response hc hp
    rw [dispatchCommand_ok_ok svc req.body _ response _ hf hc hp]
    simp only [commentCalls_fanoutTrace_append, commentCalls]
  have hrej : ∀ response reason, svc.processCommand (fanoutTrace env svc req)
      (commandArgsOf req.body (trim cap)) = .ok response →
      svc.postComment
        (fanoutTrace env svc req ++ [Call.processCommand (commandArgsOf req.body (trim cap))])
        (commentArgsOf req.body response) = .error reason →
      commentCalls (dispatchCommand svc (req.body.prop "issue".toList)
        (req.body.prop "repository".toList) (trim cap) (fanoutTrace env svc req)).2 =
        [commentArgsOf req.body response,
         commentArgsOf req.body ("Error processing command: ".toList ++ reason)] := by
    intro response reason hc hp
    rw [dispatchCommand_ok_error svc req.body _ response reason _ hf hc hp]
    simp only [commentCalls_fanoutTrace_append, commentCalls]
  refine ⟨herr, fun response hc => ⟨hok response hc, fun reason => hrej response reason hc⟩, ?_⟩
  cases hc : svc.processCommand (fanoutTrace env svc req)
      (commandArgsOf req.body (trim cap)) with
  | error message => left; rw [herr message hc]; rfl
  | ok response =>
    cases hp : svc.postComment
        (fanoutTrace env svc req ++ [Call.processCommand (commandArgsOf req.body (trim cap))])
        (commentArgsOf req.body response) with
    | ok u => left; rw [hok response hc hp]; rfl
    | error reason => right; rw [hrej response reason hc hp]; rfl


/-- C14, at a request whose command succeeds while every post is rejected. -/
theorem handleWebhook_post_count_witness :
    commentCalls (handleWebhook stubPlatform (testEnv "" "")
        (mockServices [] (.ok "Claude response") (.error "Failed to post comment: 503"))
        (requestOf "issue_comment" "sha256=any".toList
          (authoredPayload "@MCPClaude status"))).2 =
      [commentArgsOf (authoredPayload "@MCPClaude status") "Claude response".toList,
       commentArgsOf (authoredPayload "@MCPClaude status")
        ("Error processing command: ".toList ++ "Failed to post comment: 503".toList)] :=
  ((handleWebhook_post_count stubPlatform (testEnv "" "")
      (mockServices [] (.ok "Claude response") (.error "Failed to post comment: 503"))
      (requestOf "issue_comment" "sha256=any".toList (authoredPayload "@MCPClaude status"))
      "@MCPClaude status".toList "status".toList ⟨rfl, rfl⟩ rfl rfl rfl (by decide)
      (by decide)).2.1 "Claude response".toList rfl).2 "Failed to post comment: 503".toList rfl

/-- C14 as stated fails: the command is run once and succeeds, the post of its
response is rejected, and `postComment` is called a second time; and on a
payload whose repository has no `owner` the command is run and `postComment` is
not called at all. -/
theorem post_attempted_twice_or_never :
    (commandCalls (handleWebhook stubPlatform (testEnv "" "")
        (mockServices [] (.ok "Claude response") (.error "Failed to post comment: 503"))
        (requestOf "issue_comment" "sha256=any".toList
          (authoredPayload "@MCPClaude status"))).2).length = 1 ∧
    (commentCalls (handleWebhook stubPlatform (testEnv "" "")
        (mockServices [] (.ok "Claude response") (.error "Failed to post comment: 503"))
        (requestOf "issue_comment" "sha256=any".toList
          (authoredPayload "@MCPClaude status"))).2).length = 2 ∧
    (commandCalls (handleWebhook stubPlatform (testEnv "" "")
        (mockServices [] (.ok "Claude response") (.ok ()))
        (requestOf "issue_comment" "sha256=any".toList
          (.obj [
            ("action".toList, .str "created".toList),
            ("comment".toList, .obj [
              ("body".toList, .str "@MCPClaude status".toList),
              ("user".toList, .obj [("login".toList, .str "alice".toList)])]),
            ("issue".toList, .obj [("number".toList, .num 123)]),
            ("repository".toList, .obj [
              ("full_name".toList, .str "owner/repo".toList)])]))).2).length = 1 ∧
    (commentCalls (handleWebhook stubPlatform (testEnv "" "")
        (mockServices [] (.ok "Claude response") (.ok ()))
        (requestOf "issue_comment" "sha256=any".toList
          (.obj [
            ("action".toList, .str "created".toList),
            ("comment".toList, .obj [
              ("body".toList, .str "@MCPClaude status".toList),
              ("user".toList, .obj [("login".toList, .str "alice".toList)])]),
            ("issue".toList, .obj [("number".toList, .num 123)]),
            ("repository".toList, .obj [
              ("full_name".toList, .str "owner/repo".toList)])]))).2).length = 0 :=
  ⟨rfl, rfl, rfl, rfl⟩

theorem splitOn_ne_nil (sep : Char) (s : Str) : splitOn sep s ≠ [] := by
  induction s with
  | nil => simp [splitOn]
  | cons c cs ih =>
    unfold splitOn
    by_cases h : c = sep
    · simp [h]
    · simp only [h, if_false]
      cases hs : splitOn sep cs with
      | nil => exact absurd hs ih
      | cons piece rest => simp

theorem splitOn_of_not_mem (sep : Char) (s : Str) (h : sep ∉ s) : splitOn sep s = [s] := by
  induction s with
  | nil => rfl
  | cons c cs ih =>
    have hc : ¬ c = sep := fun hcs => h (by rw [hcs]; exact List.mem_cons_self _ _)
    have hcs : sep ∉ cs := fun hm => h (List.mem_cons_of_mem _ hm)
    unfold splitOn
    simp only [hc, if_false, ih hcs]

theorem splitOn_append_sep (sep : Char) (s rest : Str) (h : sep ∉ s) :
    splitOn sep (s ++ sep :: rest) = s :: splitOn sep rest := by
  induction s with
  | nil => simp [splitOn]
  | cons c cs ih =>
    have hc : ¬ c = sep := fun hcs => h (by rw [hcs]; exact List.mem_cons_self _ _)
    have hcs : sep ∉ cs := fun hm => h (List.mem_cons_of_mem _ hm)
    rw [List.cons_append]
    simp only [splitOn, hc, if_false, ih hcs]

/-- Splitting at commas gives back the entries that were joined by commas. -/
theorem splitOn_joinComma (entries : List Str) (hne : entries ≠ [])
    (hcomma : ∀ entry ∈ entries, ',' ∉ entry) :
    splitOn ',' (joinComma entries) = entries := by
  induction entries with
  | nil => exact absurd rfl hne
  | cons entry rest ih =>
    cases rest with
    | nil => exact splitOn_of_not_mem ',' entry (hcomma entry (by simp))
    | cons next rest2 =>
      simp only [joinComma]
      rw [splitOn_append_sep ',' entry _ (hcomma entry (by simp)),
        ih (by simp) (fun e he => hcomma e (List.mem_cons_of_mem _ he))]

theorem joinComma_eq_nil (entries : List Str) (h : joinComma entries = []) :
    entries = [] ∨ entries = [[]] := by
  cases entries with
  | nil => left; rfl
  | cons entry rest =>
    cases rest with
    | nil => right; simp only [joinComma] at h; rw [h]
    | cons next rest2 => simp [joinComma] at h

/-- The targets resolved from a variable are its entries that are not empty
once trimmed. -/
theorem targets_webhookUrls (value : Option Str) (entries : List Str)
    (h : HasEntries value entries) :
    targets (webhookUrls value) = trimmedEntries entries := by
  obtain ⟨hcomma, hv | hv⟩ := h
  · obtain ⟨rfl, rfl⟩ := hv
    rfl
  · subst hv
    unfold webhookUrls
    cases hj : (joinComma entries).isEmpty with
    | true =>
      simp only [if_true]
      have hnil : joinComma entries = [] := List.isEmpty_iff.1 hj
      rcases joinComma_eq_nil entries hnil with rfl | rfl <;> rfl
    | false =>
      simp only [hj, Bool.false_eq_true, if_false]
      have hne : entries ≠ [] := by
        rintro rfl
        simp [joinComma] at hj
      rw [splitOn_joinComma entries hne hcomma]
      rfl

/-- The fanout loop calls every target, in order, when no forward is
rejected. -/
theorem forwardEach_all (svc : Services) (mkArgs : Str → Except Str ForwardArgs)
    (hargs : ∀ url, ∃ args, mkArgs url = .ok args ∧ args.targetUrl = url)
    (hok : ∀ hist args, svc.triggerOutgoingWebhook hist args = .ok ())
    (urls : List Str) (tr : List Call) :
    forwardedUrls (forwardEach svc mkArgs urls tr).2 = forwardedUrls tr ++ targets urls := by
  induction urls generalizing tr with
  | nil => simp [forwardEach, targets]
  | cons url rest ih =>
    unfold forwardEach
    cases he : url.isEmpty with
    | true =>
      rw [targets_cons_empty url rest he]
      simp only [if_true]
      exact ih tr
    | false =>
      rw [targets_cons_nonempty url rest he]
      simp only [Bool.false_eq_true, if_false]
      obtain ⟨args, hmk, hurl⟩ := hargs url
      rw [hmk]
      simp only [awaitForward, hok]
      rw [ih]
      simp only [forwardedUrls_append, forwardedUrls, hurl, List.append_assoc,
        List.cons_append, List.nil_append]


/-- C18 (amended): when no forward is rejected, on an admitted event, the
global fanout calls `triggerOutgoingWebhook` once for each comma-separated
entry of `OUTGOING_WEBHOOK_URLS` that is not empty once trimmed, in order, with
the trimmed entry as target; on an `issue_comment`/`created` event whose
payload carries `comment`, `comment.user`, `issue`, `repository` and
`repository.owner`, the calls for the entries of `COMMENT_WEBHOOK_URLS` follow,
in the same manner, and these are all the forwards of the run.  An unset or
empty variable has no entry and yields no call. -/
theorem handleWebhook_forward_targets (P : Platform) (env : Env) (svc : Services)
    (req : Request) (outgoing comment : List Str)
    (hadm : Admitted P env req)
    (hok : ∀ hist args, svc.triggerOutgoingWebhook hist args = .ok ())
    (hout : HasEntries (envVar env "OUTGOING_WEBHOOK_URLS") outgoing)
    (hcom : HasEntries (envVar env "COMMENT_WEBHOOK_URLS") comment) :
    forwardedUrls (forwardOutgoing env svc req []) = trimmedEntries outgoing ∧
    ((isCommentCreated req = true → carriesFields req.body = true) →
      forwardedUrls (handleWebhook P env svc req).2 =
        trimmedEntries outgoing ++
          (if isCommentCreated req = true then trimmedEntries comment else [])) := by
  have hglobal : forwardedUrls (forwardOutgoing env svc req []) = trimmedEntries outgoing := by
    unfold forwardOutgoing
    rw [forwardEach_all svc _ (outgoingArgs_total req hadm.1) hok, targets_webhookUrls _ _ hout]
    rfl
  refine ⟨hglobal, fun hfields => ?_⟩
  cases hev : isCommentCreated req with
  | false =>
    rw [handleWebhook_of_admitted P env svc req hadm, if_neg (by simp [hev])]
    simp only [Bool.false_eq_true, if_false, List.append_nil]
    exact hglobal
  | true =>
    have hf := hfields hev
    rw [handleWebhook_of_carries P env svc req hadm hev hf, answerOf_snd,
      handleMention_forwardedUrls]
    simp only [if_true]
    unfold fanoutTrace forwardComment
    rw [forwardEach_all svc _ (commentForwardArgs_total req.body hadm.1 hf) hok,
      targets_webhookUrls _ _ hcom, hglobal]

/-- C18, on a comment event that carries these fields: the global list has
blank and padded entries, the comment list has one entry. -/
theorem handleWebhook_forward_targets_witness :
    forwardedUrls (handleWebhook stubPlatform
        (testEnv " https://a.example/hook ,, ,https://b.example/hook" "https://c.example/hook")
        (mockServices [] (.ok "Claude response") (.ok ()))
        (requestOf "issue_comment" "sha256=any".toList
          (authoredPayload "This is a regular comment"))).2 =
      trimmedEntries [" https://a.example/hook ".toList, [], " ".toList,
          "https://b.example/hook".toList] ++
        (if isCommentCreated (requestOf "issue_comment" "sha256=any".toList
            (authoredPayload "This is a regular comment")) = true
          then trimmedEntries ["https://c.example/hook".toList] else []) ∧
    trimmedEntries [" https://a.example/hook ".toList, [], " ".toList,
        "https://b.example/hook".toList] =
      ["https://a.example/hook".toList, "https://b.example/hook".toList] :=
  ⟨(handleWebhook_forward_targets stubPlatform
      (testEnv " https://a.example/hook ,, ,https://b.example/hook" "https://c.example/hook")
      (mockServices [] (.ok "Claude response") (.ok ()))
      (requestOf "issue_comment" "sha256=any".toList
        (authoredPayload "This is a regular comment"))
      [" https://a.example/hook ".toList, [], " ".toList, "https://b.example/hook".toList]
      ["https://c.example/hook".toList]
      ⟨rfl, rfl⟩ (fun _ _ => rfl)
      ⟨by decide, Or.inr rfl⟩ ⟨by decide, Or.inr rfl⟩).2 (fun _ => rfl),
    by decide⟩


/-- C18 as stated fails: on an `issue_comment`/`created` event whose repository
has no `owner`, the entry of `COMMENT_WEBHOOK_URLS` is never called, although
no forward is rejected and the answer is 200: building the forwarded payload
reads `repo.owner.login`, which throws inside the fanout block. -/
theorem comment_target_not_called :
    trimmedEntries ["https://c.example/hook".toList] = ["https://c.example/hook".toList] ∧
    HasEntries
      (envVar (testEnv "" "https://c.example/hook") "COMMENT_WEBHOOK_URLS")
      ["https://c.example/hook".toList] ∧
    handleWebhook stubPlatform (testEnv "" "https://c.example/hook")
        (mockServices [] (.ok "Claude response") (.ok ()))
        (requestOf "issue_comment" "sha256=any".toList
          (.obj [
            ("action".toList, .str "created".toList),
            ("comment".toList, .obj [
              ("body".toList, .str "This is a regular comment".toList),
              ("user".toList, .obj [("login".toList, .str "alice".toList)])]),
            ("issue".toList, .obj [("number".toList, .num 123)]),
            ("repository".toList, .obj [
              ("full_name".toList, .str "owner/repo".toList),
              ("name".toList, .str "repo".toList)])])) =
      (okResponse, []) :=
  ⟨by decide, ⟨by decide, Or.inr rfl⟩, rfl⟩

theorem field_append (key : Str) (xs ys : List (Str × JsVal)) :
    JsVal.field key (xs ++ ys) =
      if hasKey key xs = true then JsVal.field key xs else JsVal.field key ys := by
  induction xs with
  | nil => simp [hasKey]
  | cons entry rest ih =>
    obtain ⟨k, v⟩ := entry
    by_cases hk : k = key
    · simp [JsVal.field, hasKey, hk]
    · simp [JsVal.field, hasKey, hk, ih]

theorem hasKey_map_value (key : Str) (f : Str × JsVal → JsVal) (xs : List (Str × JsVal)) :
    hasKey key (xs.map (fun entry => (entry.1, f entry))) = hasKey key xs := by
  induction xs with
  | nil => rfl
  | cons entry rest ih => simp [hasKey, ih]

theorem field_map_override (key : Str) (first second : List (Str × JsVal))
    (h : hasKey key first = true) :
    JsVal.field key (first.map (fun entry =>
        (entry.1, if hasKey entry.1 second then JsVal.field entry.1 second else entry.2))) =
      if hasKey key second = true then JsVal.field key second else JsVal.field key first := by
  induction first with
  | nil => simp [hasKey] at h
  | cons entry rest ih =>
    obtain ⟨k, v⟩ := entry
    by_cases hk : k = key
    · subst hk
      simp [JsVal.field]
    · have hrest : hasKey key rest = true := by simpa [hasKey, hk] using h
      simp [JsVal.field, hk, ih hrest]

theorem field_filter_new (key : Str) (first second : List (Str × JsVal))
    (h : hasKey key first = false) :
    JsVal.field key (second.filter (fun entry => !hasKey entry.1 first)) =
      JsVal.field key second := by
  induction second with
  | nil => rfl
  | cons entry rest ih =>
    obtain ⟨k, v⟩ := entry
    by_cases hk : k = key
    · subst hk
      simp [JsVal.field, List.filter, h]
    · by_cases hf : hasKey k first = true
      · simp [JsVal.field, List.filter, hf, hk, ih]
      · simp [JsVal.field, List.filter, hf, hk, ih]

theorem field_eq_undefined (key : Str) (xs : List (Str × JsVal)) (h : hasKey key xs = false) :
    JsVal.field key xs = .undefined := by
  induction xs with
  | nil => rfl
  | cons entry rest ih =>
    obtain ⟨k, v⟩ := entry
    simp only [hasKey, Bool.or_eq_false_iff, beq_eq_false_iff_ne, ne_eq] at h
    simp [JsVal.field, h.1, ih h.2]

/-- In `{...first, ...second}` a property of `second` wins over the property
of `first` with the same name. -/
theorem field_spread (key : Str) (first second : List (Str × JsVal)) :
    JsVal.field key (spread first second) =
      if hasKey key second = true then JsVal.field key second else JsVal.field key first := by
  unfold spread
  rw [field_append, hasKey_map_value]
  cases hf : hasKey key first with
  | true => simp only [if_true]; exact field_map_override key first second hf
  | false =>
    simp only [Bool.false_eq_true, if_false]
    rw [field_filter_new key first second hf]
    cases hs : hasKey key second with
    | true => simp
    | false =>
      simp only [Bool.false_eq_true, if_false]
      rw [field_eq_undefined key second hs, field_eq_undefined key first hf]

theorem triggerOutgoingWebhook_sent (P : Platform) (env : Env) (now : Str)
    (post : HttpRequest → Except Str JsVal) (args : ForwardArgs)
    (hpayload : args.payload.isNullish = false)
    (hmode : envVar env "NODE_ENV" ≠ some "test".toList) :
    (triggerOutgoingWebhook P env now post args).2 =
      [{ url := args.targetUrl, data := args.payload,
         headers := spread (defaultHeaders P env args.payload) (args.headers.getD []) }] := by
  unfold triggerOutgoingWebhook triggerOutgoingWebhookTry
  rw [get_of_not_nullish _ _ hpayload]
  simp only [hmode, if_false]
  generalize (HttpRequest.mk args.targetUrl args.payload
    (spread (defaultHeaders P env args.payload) (args.headers.getD []))) = request
  cases post request with
  | error e => rfl
  | ok data => cases data <;> rfl

theorem field_signature_defaultHeaders (P : Platform) (env : Env) (payload : JsVal)
    (secret : Str) (hsecret : envVar env "OUTGOING_WEBHOOK_SECRET" = some secret)
    (hne : secret ≠ []) :
    JsVal.field "X-Hub-Signature-256".toList (defaultHeaders P env payload) =
      .str (calculatedSignature P secret payload) := by
  unfold defaultHeaders
  rw [hsecret]
  cases secret with
  | nil => exact absurd rfl hne
  | cons c cs => rfl


theorem outgoingArgs_eq_ok (req : Request) (url : Str) (args : ForwardArgs)
    (h : outgoingArgs req url = .ok args) :
    args.payload.isNullish = false ∧
      hasKey "X-Hub-Signature-256".toList (args.headers.getD []) = true ∧
      JsVal.field "X-Hub-Signature-256".toList (args.headers.getD []) =
        .ofOption (req.header "x-hub-signature-256") := by
  unfold outgoingArgs at h
  cases hb : req.body.isNullish with
  | true => simp only [JsVal.get, hb, bind, Except.bind, if_true] at h; cases h
  | false =>
    simp only [JsVal.get, hb, bind, Except.bind, pure, Except.pure, Bool.false_eq_true,
      if_false] at h
    cases h
    exact ⟨rfl, rfl, rfl⟩

theorem commentForwardArgs_eq_ok (payload comment issue repo : JsVal) (url : Str)
    (args : ForwardArgs) (h : commentForwardArgs payload comment issue repo url = .ok args) :
    args.payload.isNullish = false ∧ args.headers = none := by
  unfold commentForwardArgs at h
  simp only [bind, Except.bind, pure, Except.pure] at h
  repeat' split at h
  all_goals first
    | (cases h; exact ⟨rfl, rfl⟩)
    | cases h

/-- C15 (amended): outside test mode, with `OUTGOING_WEBHOOK_SECRET` set and a
payload that is a value, `triggerOutgoingWebhook` sends one request, to the
target, with the payload as data.  Its header `X-Hub-Signature-256` is
`'sha256=' + HMAC-SHA-256(OUTGOING_WEBHOOK_SECRET, JSON.stringify(payload))` when
the caller supplies no header of that name, and the caller's value when the
caller supplies one.  So the forwards of the comment fanout (no headers
supplied) carry the outgoing signature, and the forwards of the global fanout,
which supplies the inbound `x-hub-signature-256`, carry the inbound
signature. -/
theorem triggerOutgoingWebhook_signature_header (P : Platform) (env : Env) (now : Str)
    (post : HttpRequest → Except Str JsVal) (args : ForwardArgs) (secret : Str)
    (hpayload : args.payload.isNullish = false)
    (hmode : envVar env "NODE_ENV" ≠ some "test".toList)
    (hsecret : envVar env "OUTGOING_WEBHOOK_SECRET" = some secret) (hne : secret ≠ []) :
    ∃ request, (triggerOutgoingWebhook P env now post args).2 = [request] ∧
      request.url = args.targetUrl ∧ request.data = args.payload ∧
      (hasKey "X-Hub-Signature-256".toList (args.headers.getD []) = false →
        request.header "X-Hub-Signature-256" = .str (calculatedSignature P secret args.payload)) ∧
      (hasKey "X-Hub-Signature-256".toList (args.headers.getD []) = true →
        request.header "X-Hub-Signature-256" =
          JsVal.field "X-Hub-Signature-256".toList (args.headers.getD [])) ∧
      (∀ payload comment issue repo url,
        commentForwardArgs payload comment issue repo url = .ok args →
        request.header "X-Hub-Signature-256" = .str (calculatedSignature P secret args.payload)) ∧
      (∀ req url, outgoingArgs req url = .ok args →
        request.header "X-Hub-Signature-256" = .ofOption (req.header "x-hub-signature-256")) := by
  refine ⟨_, triggerOutgoingWebhook_sent P env now post args hpayload hmode, rfl, rfl, ?_, ?_,
    ?_, ?_⟩
  · intro h
    simp only [HttpRequest.header]
    rw [field_spread, h]
    simp only [Bool.false_eq_true, if_false]
    exact field_signature_defaultHeaders P env _ secret hsecret hne
  · intro h
    simp only [HttpRequest.header]
    rw [field_spread, h]
    simp only [if_true]
  · intro payload comment issue repo url h
    have hh := (commentForwardArgs_eq_ok _ _ _ _ _ _ h).2
    simp only [HttpRequest.header]
    rw [field_spread, hh]
    simp only [Option.getD, hasKey, Bool.false_eq_true, if_false]
    exact field_signature_defaultHeaders P env _ secret hsecret hne
  · intro req url h
    obtain ⟨-, hk, hv⟩ := outgoingArgs_eq_ok req url args h
    simp only [HttpRequest.header]
    rw [field_spread, hk]
    simp only [if_true]
    exact hv

/-- C15, on a forward without caller-supplied headers. -/
theorem triggerOutgoingWebhook_signature_header_witness :
    ∃ request,
      (triggerOutgoingWebhook stubPlatform [("OUTGOING_WEBHOOK_SECRET".toList, "out".toList)]
        "2025-01-01T00:00:00.000Z".toList (fun _ => .ok (.obj []))
        { targetUrl := "https://a.example/hook".toList, payload := .obj [],
          headers := none }).2 = [request] ∧
      request.header "X-Hub-Signature-256" =
        .str (calculatedSignature stubPlatform "out".toList (.obj [])) :=
  have ⟨request, hsent, _, _, hown, _, _, _⟩ :=
    triggerOutgoingWebhook_signature_header stubPlatform
      [("OUTGOING_WEBHOOK_SECRET".toList, "out".toList)]
      "2025-01-01T00:00:00.000Z".toList (fun _ => .ok (.obj []))
      { targetUrl := "https://a.example/hook".toList, payload := .obj [], headers := none }
      "out".toList rfl (by decide) rfl (by decide)
  ⟨request, hsent, hown rfl⟩

/-- C15 as stated fails: for the argument that the global fanout builds from a
request signed `sha256=inbound`, the request sent carries `sha256=inbound` in
`X-Hub-Signature-256`, not the signature under `OUTGOING_WEBHOOK_SECRET`. -/
theorem forwarded_signature_is_inbound :
    ∃ args,
      outgoingArgs (requestOf "push" "sha256=inbound".toList (.obj []))
        "https://a.example/hook".toList = .ok args ∧
      ((triggerOutgoingWebhook stubPlatform [("OUTGOING_WEBHOOK_SECRET".toList, "out".toList)]
          "2025-01-01T00:00:00.000Z".toList (fun _ => .ok (.obj [])) args).2.map
        (fun request => request.header "X-Hub-Signature-256")) =
        [.str "sha256=inbound".toList] ∧
      "sha256=inbound".toList ≠ calculatedSignature stubPlatform "out".toList args.payload :=
  ⟨_, rfl, rfl, by decide⟩


theorem testMode_of_test (env : Env) (h : envVar env "NODE_ENV" = some "test".toList) :
    ClaudeService.testMode env = .ok true := by
  simp only [ClaudeService.testMode, h, if_true]

theorem testMode_of_malformed (env : Env) (token : Str)
    (htoken : envVar env "GITHUB_TOKEN" = some token)
    (hform : includes "ghp_".toList token = false) :
    ClaudeService.testMode env = .ok true := by
  unfold ClaudeService.testMode
  split
  · rfl
  · rw [htoken]; simp only [hform, Bool.not_false]

/-- In test mode, and with a token that does not contain `ghp_`, the executor
returns the simulated response and leaves the file system as it is. -/
theorem processCommand_simulated (env : Env) (host : Host) (request : CommandRequest)
    (fs : FileSystem) (h : ClaudeService.testMode env = .ok true) :
    ClaudeService.processCommand env host request fs =
      (.ok (simulatedResponse request.repoFullName request.command), fs) := by
  simp only [ClaudeService.processCommand, ClaudeService.processCommandTry, h]

/-- The simulated response says that it is simulated and holds the command and
the repository name. -/
theorem simulatedResponse_echoes (repoFullName command : Str) :
    (∃ before after, simulatedResponse repoFullName command = before ++ command ++ after) ∧
    (∃ before after, simulatedResponse repoFullName command = before ++ repoFullName ++ after) ∧
    (∃ before after, simulatedResponse repoFullName command =
      before ++
        "\n\nSince this is a test environment, I'm providing a simulated response. ".toList ++
        after) := by
  refine ⟨⟨"Hello! I'm Claude responding to your question: ".toList ++ [quote],
      quote ::
        ("\n\nSince this is a test environment, I'm providing a simulated response. ".toList ++
        "In production, I would:\n1. Clone the repository ".toList) ++ repoFullName ++
        ("\n2. Research the codebase\n3. Provide an informed answer to your question\n\n".toList
          ++ "For real functionality, please configure valid GitHub and Claude API tokens.".toList),
      ?_⟩,
    ⟨"Hello! I'm Claude responding to your question: ".toList ++ quote :: command ++ quote ::
        ("\n\nSince this is a test environment, I'm providing a simulated response. ".toList ++
        "In production, I would:\n1. Clone the repository ".toList),
      "\n2. Research the codebase\n3. Provide an informed answer to your question\n\n".toList ++
        "For real functionality, please configure valid GitHub and Claude API tokens.".toList,
      rfl⟩,
    ⟨"Hello! I'm Claude responding to your question: ".toList ++ quote :: command ++ [quote],
      "In production, I would:\n1. Clone the repository ".toList ++ repoFullName ++
        ("\n2. Research the codebase\n3. Provide an informed answer to your question\n\n".toList
          ++ "For real functionality, please configure valid GitHub and Claude API tokens.".toList),
      ?_⟩⟩
  · simp only [simulatedResponse, List.append_assoc, List.cons_append, List.nil_append]
  · simp only [simulatedResponse, List.append_assoc, List.cons_append, List.nil_append]

/-- The simple executor returns the simulated response when `GITHUB_TOKEN` is
not set. -/
theorem simple_processCommand_token_absent (env : Env) (now : Str) (request : CommandRequest)
    (h : envVar env "GITHUB_TOKEN" = none) :
    ClaudeServiceSimple.processCommand env now request =
      .ok (simulatedResponse request.repoFullName request.command) := by
  simp [ClaudeServiceSimple.processCommand, h, truthy]

/-- C13 (defect of the code): outside test mode, when `GITHUB_TOKEN` is not
set, `claudeService.processCommand` does not return the simulated response: the
read of `process.env.GITHUB_TOKEN.includes` throws, and the call fails with
`Failed to process command: ` followed by the message of that `TypeError`, for
every request and either value of `useContainer`. -/
theorem processCommand_token_absent (env : Env) (host : Host) (request : CommandRequest)
    (fs : FileSystem) (hmode : envVar env "NODE_ENV" ≠ some "test".toList)
    (htoken : envVar env "GITHUB_TOKEN" = none) :
    ClaudeService.processCommand env host request fs =
      (.error ("Failed to process command: ".toList ++
        "Cannot read properties of undefined (reading 'includes')".toList), fs) := by
  have h : ClaudeService.testMode env =
      .error (JsVal.readErrorMessage .undefined "includes".toList) := by
    simp only [ClaudeService.testMode, hmode, if_false, htoken]
  simp only [ClaudeService.processCommand, ClaudeService.processCommandTry, h]
  rfl

/-- C13, with an empty environment, for a request in container mode. -/
theorem processCommand_token_absent_witness :
    ClaudeService.processCommand []
        { now := "1700000000000".toList, tmpdir := "/tmp".toList,
          execSync := fun _ _ fs => (.ok [], fs) }
        { repoFullName := "owner/repo".toList, issueNumber := .num 123,
          command := "status".toList, useContainer := true } [] =
      (.error ("Failed to process command: ".toList ++
        "Cannot read properties of undefined (reading 'includes')".toList), []) :=
  processCommand_token_absent []
    { now := "1700000000000".toList, tmpdir := "/tmp".toList,
      execSync := fun _ _ fs => (.ok [], fs) }
    { repoFullName := "owner/repo".toList, issueNumber := .num 123,
      command := "status".toList, useContainer := true } [] (by decide) rfl

theorem rmSync_removes (path : Str) (fs : FileSystem) :
    path ∉ rmSync path fs ∧
      ∀ entry ∈ rmSync path fs, (path ++ ['/']).isPrefixOf entry = false := by
  constructor
  · intro h
    have := (List.mem_filter.1 h).2
    simp at this
  · intro entry h
    have := (List.mem_filter.1 h).2
    simp only [Bool.and_eq_true, Bool.not_eq_true'] at this
    exact this.2

/-- C16: in the local strategy (credentials present, container mode not
selected) the temporary directory, and everything below it, no longer exists
when `processCommand` returns or throws, whatever the clone and the
interpreter do: failure of the clone, failure of the interpreter, success. -/
theorem processCommand_local_cleanup (env : Env) (host : Host) (request : CommandRequest)
    (fs : FileSystem) (hmode : ClaudeService.testMode env = .ok false)
    (hlocal : (request.useContainer &&
      envVar env "CLAUDE_USE_CONTAINERS" == some "1".toList) = false) :
    ClaudeService.tempDir host ∉ (ClaudeService.processCommand env host request fs).2 ∧
      ∀ entry ∈ (ClaudeService.processCommand env host request fs).2,
        (ClaudeService.tempDir host ++ ['/']).isPrefixOf entry = false := by
  have hfs : ∃ outcome fs1, ClaudeService.processCommandTry env host request fs =
      (outcome, rmSync (ClaudeService.tempDir host) fs1) := by
    simp only [ClaudeService.processCommandTry, hmode, hlocal, Bool.false_eq_true, if_false]
    exact ⟨_, _, rfl⟩
  obtain ⟨outcome, fs1, h⟩ := hfs
  have h2 : (ClaudeService.processCommand env host request fs).2 =
      rmSync (ClaudeService.tempDir host) fs1 := by
    unfold ClaudeService.processCommand
    rw [h]
    cases outcome <;> rfl
  rw [h2]
  exact rmSync_removes _ fs1


/-- C16, for a run whose clone writes into the temporary directory and whose
interpreter fails: the call throws and the directory is gone. -/
theorem processCommand_local_cleanup_witness :
    ClaudeService.processCommand [("GITHUB_TOKEN".toList, "ghp_0123".toList)]
        { now := "1700000000000".toList, tmpdir := "/tmp".toList,
          execSync := fun command cwd fs =>
            if "git clone".toList.isPrefixOf command then
              (.ok [], fs ++ [cwd ++ "/README.md".toList])
            else (.error "Command failed: claude".toList, fs) }
        { repoFullName := "owner/repo".toList, issueNumber := .num 123,
          command := "status".toList, useContainer := false } ["/tmp/other".toList] =
      (.error "Failed to process command: Command failed: claude".toList,
        ["/tmp/other".toList]) ∧
    ClaudeService.tempDir
        { now := "1700000000000".toList, tmpdir := "/tmp".toList,
          execSync := fun command cwd fs =>
            if "git clone".toList.isPrefixOf command then
              (.ok [], fs ++ [cwd ++ "/README.md".toList])
            else (.error "Command failed: claude".toList, fs) } ∉
      (ClaudeService.processCommand [("GITHUB_TOKEN".toList, "ghp_0123".toList)]
        { now := "1700000000000".toList, tmpdir := "/tmp".toList,
          execSync := fun command cwd fs =>
            if "git clone".toList.isPrefixOf command then
              (.ok [], fs ++ [cwd ++ "/README.md".toList])
            else (.error "Command failed: claude".toList, fs) }
        { repoFullName := "owner/repo".toList, issueNumber := .num 123,
          command := "status".toList, useContainer := false } ["/tmp/other".toList]).2 :=
  ⟨rfl,
    (processCommand_local_cleanup [("GITHUB_TOKEN".toList, "ghp_0123".toList)]
      { now := "1700000000000".toList, tmpdir := "/tmp".toList,
        execSync := fun command cwd fs =>
          if "git clone".toList.isPrefixOf command then
            (.ok [], fs ++ [cwd ++ "/README.md".toList])
          else (.error "Command failed: claude".toList, fs) }
      { repoFullName := "owner/repo".toList, issueNumber := .num 123,
        command := "status".toList, useContainer := false } ["/tmp/other".toList]
      rfl rfl).1⟩

/-- C17: on the direct endpoint, a body with a repository name and a command is
answered 401, without any call to the executor, when `CLAUDE_API_AUTH_REQUIRED`
is `1` and `authToken` is missing or differs from `CLAUDE_API_AUTH_TOKEN`; a
parsed body without repository name or without command is answered 400,
without any call to the executor. -/
theorem directRoute_rejections (env : Env) (simple : DirectArgs → Except Str Str)
    (body : JsVal) :
    ((body.prop "repoFullName".toList).truthy = true →
      (body.prop "command".toList).truthy = true →
      envVar env "CLAUDE_API_AUTH_REQUIRED" = some "1".toList →
      ((body.prop "authToken".toList).truthy = false ∨
        sameToken (body.prop "authToken".toList) (envVar env "CLAUDE_API_AUTH_TOKEN") = false) →
      directRoute env simple body =
        ({ status := 401, json := [("error".toList, "Invalid authentication token".toList)] },
          [])) ∧
    (body.isNullish = false →
      ((body.prop "repoFullName".toList).truthy = false ∨
        (body.prop "command".toList).truthy = false) →
      (directRoute env simple body).1.status = 400 ∧ (directRoute env simple body).2 = []) := by
  constructor
  · intro hrepo hcommand hreq htoken
    have hb : body.isNullish = false := by
      cases body <;> first | rfl | (simp [JsVal.prop, JsVal.truthy] at hrepo)
    unfold directRoute
    simp only [hb, hrepo, hcommand, hreq, Bool.false_eq_true, if_false, Bool.not_true, if_true]
    rcases htoken with h | h
    · simp only [h, Bool.not_false, Bool.true_or, if_true]
    · simp only [h, Bool.not_false, Bool.or_true, if_true]
  · intro hb hmissing
    cases hrepo : (body.prop "repoFullName".toList).truthy with
    | false =>
      have h400 : directRoute env simple body =
          ({ status := 400, json := [("error".toList, "Repository name is required".toList)] },
            []) := by
        unfold directRoute
        simp only [hb, hrepo, Bool.false_eq_true, if_false, Bool.not_false, if_true]
      rw [h400]
      exact ⟨rfl, rfl⟩
    | true =>
      rcases hmissing with h | h
      · rw [hrepo] at h; cases h
      · have h400 : directRoute env simple body =
            ({ status := 400, json := [("error".toList, "Command is required".toList)] },
              []) := by
          unfold directRoute
          simp only [hb, hrepo, h, Bool.false_eq_true, if_false, Bool.not_false, Bool.not_true,
            if_true]
        rw [h400]
        exact ⟨rfl, rfl⟩

/-- C17, at a body with a wrong token, and at a body without command. -/
theorem directRoute_rejections_witness :
    directRoute [("CLAUDE_API_AUTH_REQUIRED".toList, "1".toList),
          ("CLAUDE_API_AUTH_TOKEN".toList, "secret-token".toList)]
        (fun _ => .ok "Claude response".toList)
        (.obj [("repoFullName".toList, .str "owner/repo".toList),
          ("command".toList, .str "status".toList),
          ("authToken".toList, .str "guess".toList)]) =
      ({ status := 401, json := [("error".toList, "Invalid authentication token".toList)] },
        []) ∧
    (directRoute [] (fun _ => .ok "Claude response".toList)
        (.obj [("repoFullName".toList, .str "owner/repo".toList)])).1.status = 400 ∧
    (directRoute [] (fun _ => .ok "Claude response".toList)
        (.obj [("repoFullName".toList, .str "owner/repo".toList)])).2 = [] :=
  ⟨(directRoute_rejections [("CLAUDE_API_AUTH_REQUIRED".toList, "1".toList),
        ("CLAUDE_API_AUTH_TOKEN".toList, "secret-token".toList)]
      (fun _ => .ok "Claude response".toList)
      (.obj [("repoFullName".toList, .str "owner/repo".toList),
        ("command".toList, .str "status".toList),
        ("authToken".toList, .str "guess".toList)])).1 rfl rfl rfl (Or.inr rfl),
    (directRoute_rejections [] (fun _ => .ok "Claude response".toList)
      (.obj [("repoFullName".toList, .str "owner/repo".toList)])).2 rfl (Or.inr rfl)⟩

end ClaudeContainerApi
